import Mathlib

/-!
# Verification of the rspace-web-clipper clipping pipeline

Shallow embedding of the content-capture and clipping pipeline of the
rspace-web-clipper browser extension (src/content.js, src/popup.js — which
concatenates the popup UI script and the background service worker — and the
config script), together with proofs settling the frozen claims about it.

JavaScript strings are modelled as Lean `String`/`List Char`; the DOM
fragments handled by `cleanHtml` are modelled as a tree type (the browser's
HTML parser, which turns the raw `innerHTML` string into that tree, is not
modelled: `cleanHtml`'s own logic operates on the parsed tree).  Network
I/O is modelled by passing each operation the outcome of the fetches it
performs; `fetchWithTimeout`'s thrown `Request timeout` error is the
`JsOutcome.throw` case.  Mutable module state (the documents cache) is
passed in and returned explicitly.
-/

/-- The apostrophe character (code point 39). -/
def apos : Char := Char.ofNat 39

/-- The double-quote character. -/
def dquote : Char := '"'

/-! ## escapeHtml (content.js lines 224–232, popup.js lines 1664–1672)

The source escapes via five sequential global single-character
`String.replace` calls, in this order: `&`, `<`, `>`, `"`, `'`. -/

/-- One global single-character replace pass, as JS
`str.replace(/c/g, rep)` for a single character `c`. -/
def replaceChar (c : Char) (rep : List Char) : List Char → List Char
  | [] => []
  | x :: t => (if x = c then rep else [x]) ++ replaceChar c rep t

/-- The five sequential replace passes of `escapeHtml`, on character lists. -/
def escapeHtmlL (l : List Char) : List Char :=
  replaceChar apos "&#039;".toList
    (replaceChar dquote "&quot;".toList
      (replaceChar '>' "&gt;".toList
        (replaceChar '<' "&lt;".toList
          (replaceChar '&' "&amp;".toList l))))

/-- `escapeHtml` on a (present, string-valued) argument: the
`if (!text) return ''` guard means the empty string maps to itself
untransformed; both source copies (content.js and popup.js) perform the
same five replacements. -/
def escapeHtmlStr (s : String) : String :=
  if s = "" then "" else String.mk (escapeHtmlL s.toList)

/-- `escapeHtml` with a possibly missing (`undefined`) argument: the
falsy guard returns the empty string. -/
def escapeHtml (t : Option String) : String :=
  match t with
  | none => ""
  | some s => escapeHtmlStr s

/-- The single-character-to-block map that the five sequential replaces
amount to (proved below in `escapeHtmlL_eq_flatMap`, not assumed). -/
def escMap (c : Char) : List Char :=
  if c = '&' then "&amp;".toList
  else if c = '<' then "&lt;".toList
  else if c = '>' then "&gt;".toList
  else if c = dquote then "&quot;".toList
  else if c = apos then "&#039;".toList
  else [c]

theorem replaceChar_append (c : Char) (rep : List Char) (a b : List Char) :
    replaceChar c rep (a ++ b) = replaceChar c rep a ++ replaceChar c rep b := by
  induction a with
  | nil => rfl
  | cons x t ih => simp [replaceChar, ih]

theorem replaceChar_skip (c : Char) (rep : List Char) (x : Char) (h : x ≠ c) :
    replaceChar c rep [x] = [x] := by
  simp [replaceChar, h]

theorem escapeHtmlL_cons (x : Char) (t : List Char) :
    escapeHtmlL (x :: t) = escMap x ++ escapeHtmlL t := by
  have hx : (x :: t) = [x] ++ t := rfl
  rw [hx]
  simp only [escapeHtmlL, replaceChar_append]
  by_cases h1 : x = '&'
  · subst h1; rfl
  · by_cases h2 : x = '<'
    · subst h2; rfl
    · by_cases h3 : x = '>'
      · subst h3; rfl
      · by_cases h4 : x = dquote
        · subst h4; rfl
        · by_cases h5 : x = apos
          · subst h5; rfl
          · rw [replaceChar_skip _ _ _ h1, replaceChar_skip _ _ _ h2,
              replaceChar_skip _ _ _ h3, replaceChar_skip _ _ _ h4,
              replaceChar_skip _ _ _ h5]
            simp [escMap, h1, h2, h3, h4, h5]

theorem escapeHtmlL_eq_flatMap (l : List Char) :
    escapeHtmlL l = l.flatMap escMap := by
  induction l with
  | nil => rfl
  | cons x t ih => rw [escapeHtmlL_cons, ih]; rfl

/-! ## sanitizeClippedHtml (popup.js lines 1649–1662)

Five sequential global regex replacements on the string, in source order:
`<script...</script>` blocks, quoted `on*=` handlers, unquoted `on*=`
handlers, the literal `javascript:`, the literal `vbscript:`.  All five
regexes are case-insensitive and deterministic (no effective
backtracking), so each is modelled as a scan that, at every position,
either deletes the unique match starting there and resumes after it, or
keeps the character — exactly how a JS global replace-with-empty-string
proceeds.  Case-insensitivity is modelled with ASCII `Char.toLower`
(divergence from JS only on exotic Unicode case pairs). -/

/-- JS regex `\w` (ASCII word character). -/
def isWordChar (c : Char) : Bool :=
  ('a' ≤ c && c ≤ 'z') || ('A' ≤ c && c ≤ 'Z') || ('0' ≤ c && c ≤ '9') || c = '_'

/-- JS regex `\s` (whitespace, including Unicode space separators). -/
def isSpaceJS (c : Char) : Bool :=
  c = ' ' || c = '\t' || c = '\n' || c = '\r' || c = Char.ofNat 11 ||
  c = Char.ofNat 12 || c = Char.ofNat 0xa0 || c = Char.ofNat 0x1680 ||
  (0x2000 ≤ c.toNat && c.toNat ≤ 0x200a) || c = Char.ofNat 0x2028 ||
  c = Char.ofNat 0x2029 || c = Char.ofNat 0x202f || c = Char.ofNat 0x205f ||
  c = Char.ofNat 0x3000 || c = Char.ofNat 0xfeff

/-- Quote characters accepted by the quoted-handler regex (`["']`). -/
def isQuote (c : Char) : Bool := c = dquote || c = apos

/-- Case-insensitive prefix test: `pat` (given in lowercase) begins `l`. -/
def ciStart : List Char → List Char → Bool
  | [], _ => true
  | _ :: _, [] => false
  | p :: ps, x :: xs => x.toLower = p && ciStart ps xs

/-- Exact prefix test on character lists. -/
def isStart : List Char → List Char → Bool
  | [], _ => true
  | _ :: _, [] => false
  | p :: ps, x :: xs => p = x && isStart ps xs

/-- JS `String.prototype.startsWith`. -/
def strStarts (s pre : String) : Bool := isStart pre.toList s.toList

/-- JS `String.prototype.toLowerCase` (ASCII case folding). -/
def strLower (s : String) : String := String.mk (s.toList.map Char.toLower)

/-- JS `String.prototype.trim` (whitespace from both ends). -/
def strTrim (s : String) : String :=
  String.mk (((s.toList.dropWhile isSpaceJS).reverse.dropWhile isSpaceJS).reverse)

def scriptOpen : List Char := "<script".toList

def scriptClose : List Char := "</script>".toList

/-- Index of the first (case-insensitive) occurrence of `</script>`. -/
def findCloseIdx : List Char → Option Nat
  | [] => none
  | c :: t => if ciStart scriptClose (c :: t) then some 0 else (findCloseIdx t).map (· + 1)

/-- Match of `/<script\b[^<]*(?:(?!<\/script>)<[^<]*)*<\/script>/i` at the
head of `l`: `<script` with a word boundary, then everything up to and
including the first `</script>` (the group structure admits exactly the
strings with no earlier `</script>`, making the match deterministic). -/
def matchScriptBlock (l : List Char) : Option Nat :=
  if ciStart scriptOpen l then
    let rest := l.drop scriptOpen.length
    let boundaryOk := match rest with
      | [] => true
      | c :: _ => !isWordChar c
    if boundaryOk then
      match findCloseIdx rest with
      | some i => some (scriptOpen.length + i + scriptClose.length)
      | none => none
    else none
  else none

/-- Match of `/on\w+\s*=\s*["'][^"']*["']/i` at the head of `l`. -/
def matchOnQuoted (l : List Char) : Option Nat :=
  match l with
  | c1 :: c2 :: rest =>
    if c1.toLower = 'o' && c2.toLower = 'n' then
      let w := rest.takeWhile isWordChar
      if w.length = 0 then none
      else
        let r1 := rest.drop w.length
        let s1 := r1.takeWhile isSpaceJS
        match r1.drop s1.length with
        | '=' :: r2 =>
          let s2 := r2.takeWhile isSpaceJS
          match r2.drop s2.length with
          | q :: r3 =>
            if isQuote q then
              let body := r3.takeWhile (fun c => !isQuote c)
              match r3.drop body.length with
              | q2 :: _ =>
                if isQuote q2 then
                  some (2 + w.length + s1.length + 1 + s2.length + 1 + body.length + 1)
                else none
              | [] => none
            else none
          | [] => none
        | _ => none
    else none
  | _ => none

/-- Match of `/on\w+\s*=\s*[^\s>]*/i` at the head of `l` (the final group
may be empty, so any `on\w+\s*=\s*` prefix matches). -/
def matchOnUnquoted (l : List Char) : Option Nat :=
  match l with
  | c1 :: c2 :: rest =>
    if c1.toLower = 'o' && c2.toLower = 'n' then
      let w := rest.takeWhile isWordChar
      if w.length = 0 then none
      else
        let r1 := rest.drop w.length
        let s1 := r1.takeWhile isSpaceJS
        match r1.drop s1.length with
        | '=' :: r2 =>
          let s2 := r2.takeWhile isSpaceJS
          let tail := (r2.drop s2.length).takeWhile (fun c => !isSpaceJS c && c ≠ '>')
          some (2 + w.length + s1.length + 1 + s2.length + tail.length)
        | _ => none
    else none
  | _ => none

def jsPat : List Char := "javascript:".toList

def vbPat : List Char := "vbscript:".toList

/-- Match of the literal `/javascript:/i` at the head of `l`. -/
def matchJs (l : List Char) : Option Nat :=
  if ciStart jsPat l then some jsPat.length else none

/-- Match of the literal `/vbscript:/i` at the head of `l`. -/
def matchVb (l : List Char) : Option Nat :=
  if ciStart vbPat l then some vbPat.length else none

/-- One global replace-with-empty pass: scan left to right; at a match of
length `n` delete it and resume scanning after it (no rescan of the splice
point, as with a JS regex global replace); otherwise keep the character.
The fuel is the remaining list length, which every step consumes. -/
def scanRemoveAux (f : List Char → Option Nat) : Nat → List Char → List Char
  | 0, _ => []
  | _ + 1, [] => []
  | fuel + 1, c :: t =>
    match f (c :: t) with
    | some n =>
      if n = 0 then c :: scanRemoveAux f fuel t
      else scanRemoveAux f fuel (List.drop (n - 1) t)
    | none => c :: scanRemoveAux f fuel t

def scanRemove (f : List Char → Option Nat) (l : List Char) : List Char :=
  scanRemoveAux f l.length l

/-- `sanitizeClippedHtml` (popup.js 1649–1662): falsy guard, then the five
replacement passes in source order. -/
def sanitizeClippedHtml (s : String) : String :=
  if s = "" then ""
  else
    String.mk
      (scanRemove matchVb
        (scanRemove matchJs
          (scanRemove matchOnUnquoted
            (scanRemove matchOnQuoted
              (scanRemove matchScriptBlock s.toList)))))

/-- `f` matches at no position of `l` (checked at every suffix). -/
def matchFree (f : List Char → Option Nat) : List Char → Bool
  | [] => (f []).isNone
  | c :: t => (f (c :: t)).isNone && matchFree f t

theorem scanRemoveAux_id (f : List Char → Option Nat) (fuel : Nat) :
    ∀ l : List Char, l.length ≤ fuel → matchFree f l = true →
      scanRemoveAux f fuel l = l := by
  induction fuel with
  | zero =>
    intro l hl _
    have : l = [] := List.length_eq_zero.mp (Nat.le_zero.mp hl)
    subst this; rfl
  | succ n ih =>
    intro l hl hm
    match l with
    | [] => rfl
    | c :: t =>
      simp only [matchFree, Bool.and_eq_true] at hm
      have hnone : f (c :: t) = none := Option.isNone_iff_eq_none.mp hm.1
      simp only [scanRemoveAux, hnone]
      rw [ih t (Nat.le_of_succ_le_succ (by simpa using hl)) hm.2]

theorem scanRemove_id (f : List Char → Option Nat) (l : List Char)
    (h : matchFree f l = true) : scanRemove f l = l :=
  scanRemoveAux_id f l.length l (Nat.le_refl _) h

/-- No position of `s` matches any of the five dangerous-pattern regexes. -/
def dangerFree (s : String) : Bool :=
  matchFree matchScriptBlock s.toList && matchFree matchOnQuoted s.toList &&
  matchFree matchOnUnquoted s.toList && matchFree matchJs s.toList &&
  matchFree matchVb s.toList

theorem sanitizeClippedHtml_id (s : String) (h : dangerFree s = true) :
    sanitizeClippedHtml s = s := by
  simp only [dangerFree, Bool.and_eq_true] at h
  obtain ⟨⟨⟨⟨h1, h2⟩, h3⟩, h4⟩, h5⟩ := h
  by_cases he : s = ""
  · simp [sanitizeClippedHtml, he]
  · rw [sanitizeClippedHtml, if_neg he, scanRemove_id _ _ h1, scanRemove_id _ _ h2,
      scanRemove_id _ _ h3, scanRemove_id _ _ h4, scanRemove_id _ _ h5]
    rfl

/-! ## cleanHtml (content.js lines 141–217)

`cleanHtml` parses its string argument into a detached `div` and operates
on the resulting DOM tree; the tree (after the browser's HTML parse, which
is not modelled) is the input here, as a mutually inductive node/forest
type.  Tag and attribute names are as the parser produces them (lowercase
for HTML content).  `new URL(href, window.location.href)` is modelled by
an oracle `resolve : String → Option String` (`none` models the
constructor throwing).  The four source passes — dangerous-subtree
removal, attribute sanitization (with `href`/`src` rewriting), and
empty-element removal, then `div.innerHTML` re-serialization — appear in
source order. -/

mutual
inductive DNode where
  | text (s : String)
  | elem (tag : String) (attrs : List (String × String)) (children : DForest)
inductive DForest where
  | nil
  | cons (n : DNode) (t : DForest)
end

/-- content.js line 146: tags whose whole subtree is removed. -/
def dangerousTags : List String :=
  ["script", "style", "iframe", "object", "embed",
   "link", "meta", "base", "form", "input", "button",
   "textarea", "select", "applet", "audio", "video"]

/-- content.js line 159: the attribute allow-list. -/
def safeAttrs : List String := ["href", "src", "alt", "title"]

/-- Pass 1 (lines 145–153): remove every element whose tag is on the
deny-list, subtree included (`querySelectorAll(tag)` + `remove()`). -/
def removeDangerousF : DForest → DForest
  | .nil => .nil
  | .cons (.text s) t => .cons (.text s) (removeDangerousF t)
  | .cons (.elem tag attrs cs) t =>
    if dangerousTags.contains tag then removeDangerousF t
    else .cons (.elem tag attrs (removeDangerousF cs)) (removeDangerousF t)

def getAttr (attrs : List (String × String)) (n : String) : Option String :=
  (attrs.find? (fun a => a.1 = n)).map (fun a => a.2)

def removeAttr (attrs : List (String × String)) (n : String) : List (String × String) :=
  attrs.filter (fun a => ¬(a.1 = n))

/-- DOM `setAttribute`: replace in place when present, append otherwise. -/
def setAttr (attrs : List (String × String)) (n v : String) : List (String × String) :=
  if attrs.any (fun a => a.1 = n) then
    attrs.map (fun a => if a.1 = n then (n, v) else a)
  else attrs ++ [(n, v)]

/-- Lines 167–186: `href` protocol blocking and relative-URL rewriting. -/
def processHref (resolve : String → Option String)
    (attrs : List (String × String)) : List (String × String) :=
  match getAttr attrs "href" with
  | none => attrs
  | some href =>
    let lowerHref := strTrim (strLower href)
    if strStarts lowerHref "javascript:" || strStarts lowerHref "data:" ||
        strStarts lowerHref "vbscript:" || strStarts lowerHref "file:" then
      removeAttr attrs "href"
    else if !strStarts href "http://" && !strStarts href "https://" &&
        !strStarts href "#" then
      match resolve href with
      | some abs => setAttr attrs "href" abs
      | none => removeAttr attrs "href"
    else attrs

/-- Lines 188–206: `src` filtering and relative-URL rewriting. -/
def processSrc (resolve : String → Option String)
    (attrs : List (String × String)) : List (String × String) :=
  match getAttr attrs "src" with
  | none => attrs
  | some src =>
    let lowerSrc := strTrim (strLower src)
    if strStarts lowerSrc "http://" || strStarts lowerSrc "https://" then attrs
    else if strStarts lowerSrc "data:image/" then attrs
    else
      match resolve src with
      | some abs => setAttr attrs "src" abs
      | none => removeAttr attrs "src"

/-- Lines 158–206 for one element: drop every attribute whose name starts
with `on` or is off the allow-list, then the `href` and `src` passes. -/
def sanitizeAttrStep (resolve : String → Option String)
    (attrs : List (String × String)) : List (String × String) :=
  processSrc resolve
    (processHref resolve
      (attrs.filter (fun a => ¬(strStarts a.1 "on" || ¬safeAttrs.contains a.1))))

/-- Pass 2 (lines 156–207): apply `sanitizeAttrStep` to every element
(`querySelectorAll('*')` is a static snapshot; attribute edits do not
change the tree shape). -/
def sanitizeTreeF (resolve : String → Option String) : DForest → DForest
  | .nil => .nil
  | .cons (.text s) t => .cons (.text s) (sanitizeTreeF resolve t)
  | .cons (.elem tag attrs cs) t =>
    .cons (.elem tag (sanitizeAttrStep resolve attrs) (sanitizeTreeF resolve cs))
      (sanitizeTreeF resolve t)

/-- DOM `textContent` of a forest. -/
def textContentF : DForest → String
  | .nil => ""
  | .cons (.text s) t => s ++ textContentF t
  | .cons (.elem _ _ cs) t => textContentF cs ++ textContentF t

/-- `el.querySelector('img') !== null`: an `img` element at any depth. -/
def hasImgF : DForest → Bool
  | .nil => false
  | .cons (.text _) t => hasImgF t
  | .cons (.elem tag _ cs) t => tag == "img" || hasImgF cs || hasImgF t

/-- Pass 3 (lines 210–214): remove elements with no text content, no image
descendant and not themselves images.  The `querySelectorAll('*')`
snapshot is walked in document (pre)order; removing an empty element never
changes an ancestor's or later element's emptiness or image status, so
this equals the recursive pre-order filter. -/
def removeEmptyF : DForest → DForest
  | .nil => .nil
  | .cons (.text s) t => .cons (.text s) (removeEmptyF t)
  | .cons (.elem tag attrs cs) t =>
    if strTrim (textContentF cs) == "" && !hasImgF cs && !(tag == "img") then
      removeEmptyF t
    else .cons (.elem tag attrs (removeEmptyF cs)) (removeEmptyF t)

/-- Serialization escape for text nodes (`innerHTML` read-back). -/
def escTextSerC (c : Char) : String :=
  if c = '&' then "&amp;"
  else if c = Char.ofNat 0xa0 then "&nbsp;"
  else if c = '<' then "&lt;"
  else if c = '>' then "&gt;"
  else String.mk [c]

def escTextSer (s : String) : String :=
  (s.toList.map escTextSerC).foldr (· ++ ·) ""

/-- Serialization escape for attribute values. -/
def escAttrSerC (c : Char) : String :=
  if c = '&' then "&amp;"
  else if c = Char.ofNat 0xa0 then "&nbsp;"
  else if c = dquote then "&quot;"
  else String.mk [c]

def escAttrSer (s : String) : String :=
  (s.toList.map escAttrSerC).foldr (· ++ ·) ""

/-- HTML void elements (serialized without children or a closing tag). -/
def voidTags : List String :=
  ["area", "base", "br", "col", "embed", "hr", "img", "input",
   "link", "meta", "param", "source", "track", "wbr"]

def serAttrs : List (String × String) → String
  | [] => ""
  | (n, v) :: t => " " ++ n ++ "=\"" ++ escAttrSer v ++ "\"" ++ serAttrs t

/-- `div.innerHTML` read-back (line 216). -/
def serializeF : DForest → String
  | .nil => ""
  | .cons (.text s) t => escTextSer s ++ serializeF t
  | .cons (.elem tag attrs cs) t =>
    "<" ++ tag ++ serAttrs attrs ++ ">" ++
      (if voidTags.contains tag then "" else serializeF cs ++ "</" ++ tag ++ ">") ++
      serializeF t

/-- The tree produced by `cleanHtml`'s three structural passes. -/
def cleanDomF (resolve : String → Option String) (ns : DForest) : DForest :=
  removeEmptyF (sanitizeTreeF resolve (removeDangerousF ns))

/-- `cleanHtml` (content.js 141–217) on the parsed input tree: the three
passes followed by the `innerHTML` read-back. -/
def cleanHtml (resolve : String → Option String) (ns : DForest) : String :=
  serializeF (cleanDomF resolve ns)

/-- Case-insensitive substring test. -/
def ciHasL (pat : List Char) : List Char → Bool
  | [] => ciStart pat []
  | c :: t => ciStart pat (c :: t) || ciHasL pat t

def ciHas (s pat : String) : Bool := ciHasL pat.toList s.toList

/-! ### Structural-pass guarantees -/

/-- No element of the forest has a deny-listed tag. -/
def noDangerTagsF : DForest → Bool
  | .nil => true
  | .cons (.text _) t => noDangerTagsF t
  | .cons (.elem tag _ cs) t =>
    !dangerousTags.contains tag && noDangerTagsF cs && noDangerTagsF t

/-- Every attribute name in the forest is on the allow-list. -/
def attrsSafeF : DForest → Bool
  | .nil => true
  | .cons (.text _) t => attrsSafeF t
  | .cons (.elem _ attrs cs) t =>
    attrs.all (fun a => safeAttrs.contains a.1) && attrsSafeF cs && attrsSafeF t

/-- The claim's output property: no `script` element and no attribute
whose name begins with `on`, anywhere in the forest. -/
def noScriptOnF : DForest → Bool
  | .nil => true
  | .cons (.text _) t => noScriptOnF t
  | .cons (.elem tag attrs cs) t =>
    !(tag == "script") && attrs.all (fun a => !strStarts a.1 "on") &&
      noScriptOnF cs && noScriptOnF t

theorem remDang_noDanger : ∀ fs : DForest, noDangerTagsF (removeDangerousF fs) = true
  | .nil => rfl
  | .cons (.text s) t => by
    simp [removeDangerousF, noDangerTagsF, remDang_noDanger t]
  | .cons (.elem tag attrs cs) t => by
    rw [removeDangerousF]
    split
    next h => exact remDang_noDanger t
    next h =>
      have h2 : tag ∉ dangerousTags := by simpa using h
      simp [noDangerTagsF, remDang_noDanger cs, remDang_noDanger t, h2]

theorem all_filter_safe (attrs : List (String × String)) :
    ((attrs.filter (fun a => ¬(strStarts a.1 "on" || ¬safeAttrs.contains a.1))).all
      (fun a => safeAttrs.contains a.1)) = true := by
  rw [List.all_eq_true]
  intro a ha
  rw [List.mem_filter] at ha
  have h2 := ha.2
  by_cases hc : safeAttrs.contains a.1 = true
  · exact hc
  · exfalso
    simp at h2
    exact hc (by simpa using h2.2)

theorem all_removeAttr (q : String × String → Bool) (attrs : List (String × String))
    (n : String) (h : attrs.all q = true) : (removeAttr attrs n).all q = true := by
  rw [List.all_eq_true] at h ⊢
  intro a ha
  exact h a (List.mem_filter.mp ha).1

theorem all_setAttr (q : String × String → Bool) (attrs : List (String × String))
    (n v : String) (h : attrs.all q = true) (hnv : q (n, v) = true) :
    (setAttr attrs n v).all q = true := by
  rw [List.all_eq_true] at h ⊢
  intro a ha
  rw [setAttr] at ha
  by_cases hc : attrs.any (fun a => a.1 = n) = true
  · rw [if_pos hc] at ha
    rw [List.mem_map] at ha
    obtain ⟨b, hb, hba⟩ := ha
    by_cases hbn : b.1 = n
    · rw [if_pos hbn] at hba
      rw [← hba]; exact hnv
    · rw [if_neg hbn] at hba
      rw [← hba]; exact h b hb
  · rw [if_neg hc] at ha
    rcases List.mem_append.mp ha with hmem | hmem
    · exact h a hmem
    · rw [List.mem_singleton.mp hmem]; exact hnv

theorem processHref_safe (resolve : String → Option String)
    (attrs : List (String × String))
    (h : attrs.all (fun a => safeAttrs.contains a.1) = true) :
    ((processHref resolve attrs).all (fun a => safeAttrs.contains a.1)) = true := by
  rw [processHref]
  cases getAttr attrs "href" with
  | none => exact h
  | some href =>
    simp only
    split
    · exact all_removeAttr _ _ _ h
    · split
      · cases resolve href with
        | some abs => exact all_setAttr _ _ _ _ h (by simp [safeAttrs])
        | none => exact all_removeAttr _ _ _ h
      · exact h

theorem processSrc_safe (resolve : String → Option String)
    (attrs : List (String × String))
    (h : attrs.all (fun a => safeAttrs.contains a.1) = true) :
    ((processSrc resolve attrs).all (fun a => safeAttrs.contains a.1)) = true := by
  rw [processSrc]
  cases getAttr attrs "src" with
  | none => exact h
  | some src =>
    simp only
    split
    · exact h
    · split
      · exact h
      · cases resolve src with
        | some abs => exact all_setAttr _ _ _ _ h (by simp [safeAttrs])
        | none => exact all_removeAttr _ _ _ h

theorem sanitizeAttrStep_safe (resolve : String → Option String)
    (attrs : List (String × String)) :
    ((sanitizeAttrStep resolve attrs).all (fun a => safeAttrs.contains a.1)) = true :=
  processSrc_safe resolve _ (processHref_safe resolve _ (all_filter_safe attrs))

theorem sanitizeTree_attrsSafe (resolve : String → Option String) :
    ∀ fs : DForest, attrsSafeF (sanitizeTreeF resolve fs) = true
  | .nil => rfl
  | .cons (.text s) t => by
    simp [sanitizeTreeF, attrsSafeF, sanitizeTree_attrsSafe resolve t]
  | .cons (.elem tag attrs cs) t => by
    simp only [sanitizeTreeF, attrsSafeF, Bool.and_eq_true]
    exact ⟨⟨sanitizeAttrStep_safe resolve attrs, sanitizeTree_attrsSafe resolve cs⟩,
      sanitizeTree_attrsSafe resolve t⟩

theorem sanitizeTree_noDanger (resolve : String → Option String) :
    ∀ fs : DForest, noDangerTagsF fs = true →
      noDangerTagsF (sanitizeTreeF resolve fs) = true
  | .nil => fun _ => rfl
  | .cons (.text s) t => by
    simp only [sanitizeTreeF, noDangerTagsF]
    exact sanitizeTree_noDanger resolve t
  | .cons (.elem tag attrs cs) t => by
    simp only [sanitizeTreeF, noDangerTagsF, Bool.and_eq_true]
    rintro ⟨⟨h1, h2⟩, h3⟩
    exact ⟨⟨h1, sanitizeTree_noDanger resolve cs h2⟩, sanitizeTree_noDanger resolve t h3⟩

theorem removeEmpty_noDanger :
    ∀ fs : DForest, noDangerTagsF fs = true → noDangerTagsF (removeEmptyF fs) = true
  | .nil => fun _ => rfl
  | .cons (.text s) t => by
    simp only [removeEmptyF, noDangerTagsF]
    exact removeEmpty_noDanger t
  | .cons (.elem tag attrs cs) t => by
    simp only [removeEmptyF, noDangerTagsF, Bool.and_eq_true]
    rintro ⟨⟨h1, h2⟩, h3⟩
    split
    · exact removeEmpty_noDanger t h3
    · simp only [noDangerTagsF, Bool.and_eq_true]
      exact ⟨⟨h1, removeEmpty_noDanger cs h2⟩, removeEmpty_noDanger t h3⟩

theorem removeEmpty_attrsSafe :
    ∀ fs : DForest, attrsSafeF fs = true → attrsSafeF (removeEmptyF fs) = true
  | .nil => fun _ => rfl
  | .cons (.text s) t => by
    simp only [removeEmptyF, attrsSafeF]
    exact removeEmpty_attrsSafe t
  | .cons (.elem tag attrs cs) t => by
    simp only [removeEmptyF, attrsSafeF, Bool.and_eq_true]
    rintro ⟨⟨h1, h2⟩, h3⟩
    split
    · exact removeEmpty_attrsSafe t h3
    · simp only [attrsSafeF, Bool.and_eq_true]
      exact ⟨⟨h1, removeEmpty_attrsSafe cs h2⟩, removeEmpty_attrsSafe t h3⟩

theorem safeName_not_on (n : String) (h : safeAttrs.contains n = true) :
    strStarts n "on" = false := by
  have hm : n ∈ safeAttrs := by simpa using h
  simp only [safeAttrs, List.mem_cons, List.not_mem_nil, or_false] at hm
  rcases hm with h1 | h1 | h1 | h1 <;> subst h1 <;> decide

theorem safe_imp_noScriptOn :
    ∀ fs : DForest, noDangerTagsF fs = true → attrsSafeF fs = true →
      noScriptOnF fs = true
  | .nil => fun _ _ => rfl
  | .cons (.text s) t => by
    simp only [noDangerTagsF, attrsSafeF, noScriptOnF]
    exact safe_imp_noScriptOn t
  | .cons (.elem tag attrs cs) t => by
    simp only [noDangerTagsF, attrsSafeF, noScriptOnF, Bool.and_eq_true]
    rintro ⟨⟨hd, hd2⟩, hd3⟩ ⟨⟨ha, ha2⟩, ha3⟩
    refine ⟨⟨⟨?_, ?_⟩, safe_imp_noScriptOn cs hd2 ha2⟩, safe_imp_noScriptOn t hd3 ha3⟩
    · have hne : ¬tag = "script" := by
        intro he; subst he; simp [dangerousTags] at hd
      simp [hne]
    · rw [List.all_eq_true] at ha ⊢
      intro a hmem
      simp only [Bool.not_eq_true']
      exact safeName_not_on a.1 (ha a hmem)

/-- The cleaned tree carries no `script` element and no `on*` attribute. -/
theorem cleanDomF_noScriptOn (resolve : String → Option String) (ns : DForest) :
    noScriptOnF (cleanDomF resolve ns) = true :=
  safe_imp_noScriptOn _
    (removeEmpty_noDanger _
      (sanitizeTree_noDanger resolve _ (remDang_noDanger ns)))
    (removeEmpty_attrsSafe _ (sanitizeTree_attrsSafe resolve _))

/-! ### Claim C1 -/

/-- A parsed fragment `<p>javjavascript:ascript:</p>`: a lone paragraph
whose text splices into `javascript:` once the regex pass deletes the
inner occurrence. -/
def c1DemoF : DForest :=
  .cons (.elem "p" [] (.cons (.text "javjavascript:ascript:") .nil)) .nil

/-- C1 counterexample: the full pipeline (structural `cleanHtml` pass,
then `sanitizeClippedHtml`) emits a string that still contains the
substring `javascript:`.  The structural pass keeps the harmless text
node verbatim, and the single-pass global replace deletes the inner
`javascript:` occurrence, splicing the surrounding characters into a new
one; so the claim's universally quantified substring-freedom is false. -/
theorem C1_pipeline_counterexample :
    sanitizeClippedHtml (cleanHtml (fun _ => none) c1DemoF) = "<p>javascript:</p>" ∧
      ciHas (sanitizeClippedHtml (cleanHtml (fun _ => none) c1DemoF)) "javascript:" = true := by
  constructor <;> decide

/-- C1 (amended): (a) the structural pass alone already guarantees, for
every input tree and every URL-resolution behaviour, that the cleaned DOM
contains no `script` element and no attribute whose name begins with
`on`; and (b) the post-assembly pass returns any input free of the five
dangerous patterns unchanged (so pattern-freedom is preserved); but the
absolute `javascript:`/`vbscript:` substring-freedom of the output is not
guaranteed for adversarial inputs, which can splice deleted occurrences
into new ones (see the counterexample). -/
theorem C1_sanitizer_amended :
    (∀ (resolve : String → Option String) (ns : DForest),
        noScriptOnF (cleanDomF resolve ns) = true) ∧
      (∀ s : String, dangerFree s = true → sanitizeClippedHtml s = s) :=
  ⟨cleanDomF_noScriptOn, sanitizeClippedHtml_id⟩

/-- A parsed fragment with a `script` element, an `onclick` handler and an
allow-listed attribute, exercising the amended theorem concretely. -/
def c1WitnessF : DForest :=
  .cons (.elem "script" [] (.cons (.text "evil()") .nil))
    (.cons (.elem "a" [("onclick", "evil()"), ("href", "https://example.com/a")]
      (.cons (.text "link") .nil)) .nil)

theorem C1_sanitizer_amended_witness :
    noScriptOnF (cleanDomF (fun _ => none) c1WitnessF) = true ∧
      sanitizeClippedHtml "<p>hello</p>" = "<p>hello</p>" :=
  ⟨C1_sanitizer_amended.1 (fun _ => none) c1WitnessF,
    C1_sanitizer_amended.2 "<p>hello</p>" (by decide)⟩

/-! ### Claim C10 -/

/-- The five entities `escapeHtml` can emit. -/
def entityL : List (List Char) :=
  ["&amp;".toList, "&lt;".toList, "&gt;".toList, "&quot;".toList, "&#039;".toList]

/-- Every `&` in the list starts one of the five entities. -/
def ampOkB : List Char → Bool
  | [] => true
  | c :: t =>
    (if c = '&' then entityL.any (fun e => isStart e (c :: t)) else true) && ampOkB t

/-- None of `<`, `>`, `"`, `'` occurs in the list. -/
def noForbiddenB (l : List Char) : Bool :=
  l.all (fun c => !(c = '<') && !(c = '>') && !(c = dquote) && !(c = apos))

theorem isStart_append (p : List Char) :
    ∀ x y : List Char, isStart p x = true → isStart p (x ++ y) = true := by
  induction p with
  | nil => intro x y _; rfl
  | cons a ps ih =>
    intro x y h
    cases x with
    | nil => exact absurd h (by simp [isStart])
    | cons b xs =>
      simp only [isStart, Bool.and_eq_true] at h ⊢
      exact ⟨h.1, ih xs y h.2⟩

theorem ampOkB_append (x y : List Char) (hx : ampOkB x = true) (hy : ampOkB y = true) :
    ampOkB (x ++ y) = true := by
  induction x with
  | nil => simpa using hy
  | cons c t ih =>
    simp only [ampOkB, Bool.and_eq_true] at hx ⊢
    refine ⟨?_, ih hx.2⟩
    by_cases hc : c = '&'
    · rw [if_pos hc] at hx ⊢
      rw [List.any_eq_true] at hx ⊢
      obtain ⟨e, he, hse⟩ := hx.1
      exact ⟨e, he, isStart_append e (c :: t) y hse⟩
    · rw [if_neg hc]

theorem noForbiddenB_append (x y : List Char) (hx : noForbiddenB x = true)
    (hy : noForbiddenB y = true) : noForbiddenB (x ++ y) = true := by
  simp only [noForbiddenB, List.all_append, Bool.and_eq_true]
  exact ⟨hx, hy⟩

theorem escMap_ampOk (c : Char) : ampOkB (escMap c) = true := by
  rw [escMap]
  by_cases h1 : c = '&'
  · rw [if_pos h1]; decide
  · rw [if_neg h1]
    by_cases h2 : c = '<'
    · rw [if_pos h2]; decide
    · rw [if_neg h2]
      by_cases h3 : c = '>'
      · rw [if_pos h3]; decide
      · rw [if_neg h3]
        by_cases h4 : c = dquote
        · rw [if_pos h4]; decide
        · rw [if_neg h4]
          by_cases h5 : c = apos
          · rw [if_pos h5]; decide
          · rw [if_neg h5]
            simp [ampOkB, h1]

theorem escMap_noForbidden (c : Char) : noForbiddenB (escMap c) = true := by
  rw [escMap]
  by_cases h1 : c = '&'
  · rw [if_pos h1]; decide
  · rw [if_neg h1]
    by_cases h2 : c = '<'
    · rw [if_pos h2]; decide
    · rw [if_neg h2]
      by_cases h3 : c = '>'
      · rw [if_pos h3]; decide
      · rw [if_neg h3]
        by_cases h4 : c = dquote
        · rw [if_pos h4]; decide
        · rw [if_neg h4]
          by_cases h5 : c = apos
          · rw [if_pos h5]; decide
          · rw [if_neg h5]
            simp [noForbiddenB, h2, h3, h4, h5]

theorem escFlat_ampOk (l : List Char) : ampOkB (l.flatMap escMap) = true := by
  induction l with
  | nil => rfl
  | cons c t ih =>
    rw [List.flatMap_cons]
    exact ampOkB_append _ _ (escMap_ampOk c) ih

theorem escFlat_noForbidden (l : List Char) : noForbiddenB (l.flatMap escMap) = true := by
  induction l with
  | nil => rfl
  | cons c t ih =>
    rw [List.flatMap_cons]
    exact noForbiddenB_append _ _ (escMap_noForbidden c) ih

/-- C10: for every input, `escapeHtml` output contains none of `<`, `>`,
`"`, `'`, and every `&` in it starts one of the five entities `&amp;`,
`&lt;`, `&gt;`, `&quot;`, `&#039;`; a missing or empty input yields the
empty string. -/
theorem C10_escapeHtml :
    escapeHtml none = "" ∧ escapeHtml (some "") = "" ∧
      ∀ t : Option String,
        noForbiddenB (escapeHtml t).toList = true ∧ ampOkB (escapeHtml t).toList = true := by
  refine ⟨rfl, rfl, ?_⟩
  intro t
  cases t with
  | none => exact ⟨rfl, rfl⟩
  | some s =>
    by_cases hs : s = ""
    · subst hs; exact ⟨rfl, rfl⟩
    · show noForbiddenB (escapeHtmlStr s).toList = true ∧ ampOkB (escapeHtmlStr s).toList = true
      rw [escapeHtmlStr, if_neg hs]
      show noForbiddenB (escapeHtmlL s.toList) = true ∧ ampOkB (escapeHtmlL s.toList) = true
      rw [escapeHtmlL_eq_flatMap]
      exact ⟨escFlat_noForbidden s.toList, escFlat_ampOk s.toList⟩

/-! ## printPageToPdf pagination (content.js lines 234–307)

The layout arithmetic of `printPageToPdf`: A4 portrait in millimetres
(jsPDF page size 210×297), margin `PDF_CONFIG.MARGIN_MM = 10`.  The image
spans `imgWidth = pdfWidth − 2·margin`; its scaled height preserves the
canvas aspect ratio.  The first page places the image at offset `margin`;
the `while (heightLeft > 0)` loop adds pages, each placing the same image
at `position = heightLeft − imgHeight + margin`.  The exact rational
arithmetic of the source (whose inputs here are exactly representable)
is modelled over `ℚ`. -/

def MARGIN_MM : ℚ := 10

def pdfWidthMm : ℚ := 210

def pdfHeightMm : ℚ := 297

/-- One page's usable height: `pdfHeight - marginDouble` (line 300). -/
def usableHeight : ℚ := pdfHeightMm - MARGIN_MM * 2

/-- The `while (heightLeft > 0)` loop (lines 302–307), returning the
vertical offsets of the pages it adds. -/
def pdfLoop (heightLeft imgHeight : ℚ) : List ℚ :=
  if h : 0 < heightLeft then
    (heightLeft - imgHeight + MARGIN_MM) :: pdfLoop (heightLeft - usableHeight) imgHeight
  else []
  termination_by (⌈heightLeft / usableHeight⌉).toNat
  decreasing_by
    have hu : usableHeight = 277 := by norm_num [usableHeight, pdfHeightMm, MARGIN_MM]
    rw [hu]
    have h1 : (heightLeft - 277) / 277 = heightLeft / 277 - 1 := by ring
    rw [h1, Int.ceil_sub_one]
    have h2 : (0 : ℤ) < ⌈heightLeft / 277⌉ :=
      Int.lt_ceil.mpr (by exact_mod_cast div_pos h (by norm_num))
    omega

theorem pdfLoop_pos (hl ih : ℚ) (h : 0 < hl) :
    pdfLoop hl ih = (hl - ih + MARGIN_MM) :: pdfLoop (hl - usableHeight) ih := by
  rw [pdfLoop]; simp [h]

theorem pdfLoop_nonpos (hl ih : ℚ) (h : ¬0 < hl) : pdfLoop hl ih = [] := by
  rw [pdfLoop]; simp [h]

/-- `imgHeight = (canvas.height * imgWidth) / canvas.width` (line 294). -/
def imgHeightOf (canvasW canvasH : ℚ) : ℚ :=
  canvasH * (pdfWidthMm - MARGIN_MM * 2) / canvasW

/-- The vertical offsets at which `printPageToPdf` draws the image, one
entry per emitted page: offset `margin` on the first page (line 299),
then the loop's offsets. -/
def printPagePositions (canvasW canvasH : ℚ) : List ℚ :=
  MARGIN_MM ::
    pdfLoop (imgHeightOf canvasW canvasH - usableHeight) (imgHeightOf canvasW canvasH)

/-- C7: a canvas whose scaled image height is 2.5× the usable height
yields exactly 3 pages, page `k` placing the image at offset
`margin − k·usableHeight`. -/
theorem C7_pdf_pagination (w h : ℚ)
    (himg : imgHeightOf w h = 5 / 2 * usableHeight) :
    printPagePositions w h =
        [MARGIN_MM, MARGIN_MM - usableHeight, MARGIN_MM - 2 * usableHeight] ∧
      (printPagePositions w h).length = 3 := by
  have hu : usableHeight = 277 := by norm_num [usableHeight, pdfHeightMm, MARGIN_MM]
  have hmain : printPagePositions w h =
      [MARGIN_MM, MARGIN_MM - usableHeight, MARGIN_MM - 2 * usableHeight] := by
    rw [printPagePositions, himg, hu]
    norm_num
    rw [pdfLoop_pos _ _ (by norm_num)]
    norm_num [MARGIN_MM, hu]
    rw [pdfLoop_pos _ _ (by norm_num)]
    norm_num [hu]
    rw [pdfLoop_nonpos _ _ (by norm_num)]
    norm_num [MARGIN_MM]
  exact ⟨hmain, by rw [hmain]; rfl⟩

/-- C7 witness: a 380×1385 canvas has scaled image height
`1385·190/380 = 692.5 = 2.5 × 277`. -/
theorem C7_pdf_pagination_witness :
    printPagePositions 380 1385 =
        [MARGIN_MM, MARGIN_MM - usableHeight, MARGIN_MM - 2 * usableHeight] ∧
      (printPagePositions 380 1385).length = 3 :=
  C7_pdf_pagination 380 1385
    (by norm_num [imgHeightOf, usableHeight, pdfWidthMm, pdfHeightMm, MARGIN_MM])

/-! ## getContent handling (content.js lines 8–74)

The message handler validates `request.contentType` against
`VALID_CONTENT_TYPES` before calling `extractContent`; a missing
(`undefined`, modelled `none`) or falsy-empty or unknown value answers
`null` without attempting extraction.  The DOM-dependent extractors are
oracles: the current selection (`null` when empty), the full-page
capture, and the URL-only capture. -/

structure Content where
  html : String
  text : String

def VALID_CONTENT_TYPES : List String := ["selection", "full-page", "url-only"]

/-- `extractContent` (lines 62–74): the `switch`, whose `default` falls
back to the selection extractor. -/
def extractContent (contentType : String) (sel : Option Content)
    (fullC urlC : Content) : Option Content :=
  if contentType = "selection" then sel
  else if contentType = "full-page" then some fullC
  else if contentType = "url-only" then some urlC
  else sel

/-- The `getContent` message handler (lines 20–37): the validation guard,
then extraction.  The second component records whether extraction was
attempted (reached line 29). -/
def handleGetContent (contentType : Option String) (sel : Option Content)
    (fullC urlC : Content) : Option Content × Bool :=
  match contentType with
  | none => (none, false)
  | some ct =>
    if ct = "" || !VALID_CONTENT_TYPES.contains ct then (none, false)
    else (extractContent ct sel fullC urlC, true)

/-- C9: a missing contentType, or one not among the three valid modes, is
answered `null` with no extraction attempted — no silent default. -/
theorem C9_getContent_fail_closed (contentType : Option String)
    (sel : Option Content) (fullC urlC : Content)
    (h : ∀ v ∈ VALID_CONTENT_TYPES, contentType ≠ some v) :
    handleGetContent contentType sel fullC urlC = (none, false) := by
  cases contentType with
  | none => rfl
  | some ct =>
    have hmem : ct ∉ VALID_CONTENT_TYPES := fun hm => (h ct hm) rfl
    simp [handleGetContent, hmem]

theorem C9_getContent_fail_closed_witness :
    handleGetContent (some "pdf") none ⟨"", ""⟩ ⟨"", ""⟩ = (none, false) :=
  C9_getContent_fail_closed (some "pdf") none ⟨"", ""⟩ ⟨"", ""⟩ (by decide)

/-! ## Remote document client and clip orchestrator (popup.js background part)

Network effects are modelled by passing in each fetch's outcome:
`JsOutcome.throw m` is a thrown exception (`fetchWithTimeout` throws
`Request timeout` on an elapsed timeout), `JsOutcome.ret` a settled
response.  Every request the code issues is logged as a `NetCall`, whose
`wrapped` flag records whether the source routes that call through
`fetchWithTimeout` (true) or bare `fetch` (false); for document-update
PUTs the logged `putBody` is the `(field id, field content)` payload.
The module-global `documentsCache` is threaded explicitly; credentials
from `chrome.storage.session` are an `Option Creds` (absent or falsy
values are `none`).  `formatTimestamp(new Date())` depends on the clock,
so the timestamp string is a parameter. -/

structure Creds where
  serverUrl : String
  accessToken : String

inductive JsOutcome (α : Type) where
  | throw (msg : String)
  | ret (v : α)

structure NetCall where
  url : String
  method : String
  wrapped : Bool
  putBody : Option (Nat × String)

structure DocEntry where
  id : Nat
  globalId : String
  name : String

/-- The `documentsCache` record (popup.js lines 1182–1188). -/
structure Cache where
  data : Option (List DocEntry)
  timestamp : Option Nat
  ttl : Nat
  totalPages : Option Nat
  pageSize : Nat

def TTL_MS : Nat := 5 * 60 * 1000

def DEFAULT_PAGE_SIZE : Nat := 50

/-- The all-null cache value the code assigns on invalidation and at
startup (lines 1182–1188, 1322–1329, 1572–1578, 1742–1748). -/
def resetCache : Cache := ⟨none, none, TTL_MS, none, DEFAULT_PAGE_SIZE⟩

/-- `getHttpErrorMessage` (popup.js lines 1198–1209). -/
def getHttpErrorMessage (status : Nat) : String :=
  if status = 401 then "Session expired. Please reconnect."
  else if status = 403 then "Permission denied. Check your access rights."
  else if status = 429 then "Too many requests. Please wait and try again."
  else if 500 ≤ status then "Server error. Please try again later."
  else "Request failed. Please try again."

/-- The POST `/api/v1/documents` response as `createDocument` consumes
it: HTTP status, the error body both as parsed JSON (`none` = parse
threw; `some none` = parsed but no truthy `message`/`error` field) and as
raw text, and on success the new document's id and globalId. -/
structure CreateHttp where
  ok : Bool
  status : Nat
  errJsonMsg : Option (Option String)
  errText : String
  newId : Nat
  newGlobalId : String

structure ClipResult where
  success : Bool
  documentId : Option Nat
  globalId : Option String
  error : Option String

/-- The error-message extraction of `createDocument` (lines 1241–1253). -/
def createErrMsg (r : CreateHttp) : String :=
  match r.errJsonMsg with
  | some (some m) => m
  | some none => getHttpErrorMessage r.status
  | none =>
    if r.errText ≠ "" ∧ r.errText.length < 100 then r.errText
    else getHttpErrorMessage r.status

/-- `createDocument` (popup.js lines 1218–1266).  It has no try/catch, so
a thrown timeout propagates to the caller. -/
def createDocumentModel (srv title : String) (h : JsOutcome CreateHttp) :
    JsOutcome ClipResult × List NetCall :=
  let call : NetCall := ⟨srv ++ "/api/v1/documents", "POST", true, none⟩
  match h with
  | .throw m => (.throw m, [call])
  | .ret r =>
    if r.ok then (.ret ⟨true, some r.newId, some r.newGlobalId, none⟩, [call])
    else (.ret ⟨false, none, none, some (createErrMsg r)⟩, [call])

/-- The truthiness-and-TTL cache check (lines 1366–1369): `data` and
`timestamp` truthy (a zero timestamp is falsy) and age below TTL.  JS
would compare a negative age below the TTL just as a truncated-to-zero
Nat subtraction does. -/
def cacheFresh (c : Cache) (now : Nat) : Bool :=
  match c.data, c.timestamp with
  | some _, some ts => ts != 0 && decide (now - ts < c.ttl)
  | _, _ => false

structure ListHttp where
  ok : Bool
  status : Nat
  documents : List DocEntry
  totalHits : Option Nat

structure GDocsResult where
  success : Bool
  error : Option String
  documents : List DocEntry
  hasMore : Bool

structure GDOut where
  res : GDocsResult
  cache : Cache
  calls : List NetCall

/-- `getDocuments` (popup.js lines 1344–1435), minus the
`activeRequests` dedup wrapper (modelled separately, claim C4): auth
check, page-0 cache check, fetch, normalization, `hasMore`, page-0 cache
population, error mapping, `finally`. -/
def getDocumentsModel (page now : Nat) (auth : Option Creds)
    (net : JsOutcome ListHttp) (c : Cache) : GDOut :=
  match auth with
  | none => ⟨⟨false, some "Not authenticated", [], false⟩, c, []⟩
  | some cr =>
    if page = 0 && cacheFresh c now then
      ⟨⟨true, none, c.data.getD [], decide (1 < c.totalPages.getD 0)⟩, c, []⟩
    else
      let call : NetCall :=
        ⟨cr.serverUrl ++ "/api/v1/documents?pageSize=50&pageNumber=" ++ toString page ++
          "&orderBy=lastModified desc", "GET", true, none⟩
      match net with
      | .throw m =>
        ⟨⟨false,
          some (if m = "Request timeout" then "Request timeout"
                else "Failed to load documents"), [], false⟩, c, [call]⟩
      | .ret r =>
        if !r.ok then
          ⟨⟨false, some (getHttpErrorMessage r.status), [], false⟩, c, [call]⟩
        else
          let docs := r.documents.map (fun d => ⟨d.id, d.globalId, d.name⟩)
          let totalDocs :=
            match r.totalHits with
            | some t => if t = 0 then docs.length else t
            | none => docs.length
          let totalPages := (totalDocs + DEFAULT_PAGE_SIZE - 1) / DEFAULT_PAGE_SIZE
          let hasMore := decide (page + 1 < totalPages)
          let c' :=
            if page = 0 then
              ⟨some docs, some now, TTL_MS, some totalPages, DEFAULT_PAGE_SIZE⟩
            else c
          ⟨⟨true, none, docs, hasMore⟩, c', [call]⟩

/-- The duck-typed `request.targetDoc` (`isNew`/`title` or
`id`/`globalId`). -/
structure TargetDoc where
  isNew : Bool
  title : String
  id : Nat
  globalId : String

/-- The `clipContent`/`clipPdf` message payload. -/
structure ClipRequest where
  targetDoc : TargetDoc
  contentHtml : String
  note : String
  sourceUrl : String
  sourceTitle : String

/-- `formatClippedContent` (popup.js lines 1625–1647): escaped pieces,
attribution paragraph, optional note paragraph (skipped when the note is
falsy), then the re-sanitized captured HTML in an inner div. -/
def formatClippedContent (req : ClipRequest) (timestamp : String) : String :=
  let safeUrl := escapeHtmlStr req.sourceUrl
  let safeTitle := escapeHtmlStr req.sourceTitle
  let safeNote := if req.note = "" then "" else escapeHtmlStr req.note
  let safeTimestamp := escapeHtmlStr timestamp
  let html := "<div style=\"border-left: 3px solid #4a90e2; padding-left: 12px; margin: 20px 0;\">"
  let html := html ++ "<p style=\"color: #666; font-size: 0.9em; margin: 0 0 8px 0;\">"
  let html := html ++ ("Clipped from <a href=\"" ++ safeUrl ++ "\">" ++ safeTitle ++
    "</a> on " ++ safeTimestamp)
  let html := html ++ "</p>"
  let html :=
    if safeNote ≠ "" then
      html ++ ("<p style=\"background: #fffde7; padding: 8px; border-radius: 4px; margin: 8px 0;\"><strong>Note:</strong> " ++
        safeNote ++ "</p>")
    else html
  let html := html ++ ("<div>" ++ sanitizeClippedHtml req.contentHtml ++ "</div>")
  let html := html ++ "</div>"
  html

/-- A document field (`{id, content}`); named `RField` to avoid the
`Field` algebraic class. -/
structure RField where
  id : Nat
  content : String

/-- A fetched document: `fields` may be absent in the JSON. -/
structure RDoc where
  name : String
  fields : Option (List RField)

structure GetDocHttp where
  ok : Bool
  status : Nat
  doc : RDoc

structure PutHttp where
  ok : Bool
  status : Nat

structure ClipOut where
  res : ClipResult
  cache : Cache
  calls : List NetCall

/-- `clipContent`'s catch clause (lines 1582–1588). -/
def clipCatch (m : String) : ClipResult :=
  if m = "Request timeout" then
    ⟨false, none, none, some "Request timeout. Please try again."⟩
  else ⟨false, none, none, some "An error occurred while clipping"⟩

/-- GET-failure status mapping (lines 1487–1501). -/
def getDocErrMsg (status : Nat) : String :=
  if status = 404 then "Document not found"
  else if status = 401 then "Session expired"
  else if status = 403 then "Access denied"
  else "Failed to access document"

/-- PUT-failure status mapping (lines 1553–1568). -/
def putDocErrMsg (status : Nat) : String :=
  if status = 401 then "Session expired"
  else if status = 403 then "Access denied"
  else if status = 429 then "Too many requests"
  else if 500 ≤ status then "Server error"
  else "Failed to save clipped content"

/-- Line 1507–1512's multi-field rejection message. -/
def formBasedMsg : String :=
  "Cannot clip to Form-based documents.\n\nThis document has multiple form fields. The Web Clipper can only save to simple documents with one field.\n\nPlease select or create a regular document instead."

/-- Line 1516–1522's no-fields rejection message. -/
def noFieldsMsg : String :=
  "Document has no editable fields.\n\nThis document cannot be edited. Please select a different document."

/-- The PUT step of `clipContent` (lines 1534–1581): update, status
mapping, cache invalidation on success. -/
def clipPut (srv : String) (docId : Nat) (gid : String) (fid : Nat)
    (content : String) (putH : JsOutcome PutHttp) (cache : Cache)
    (calls : List NetCall) : ClipOut :=
  let call : NetCall :=
    ⟨srv ++ "/api/v1/documents/" ++ toString docId, "PUT", true, some (fid, content)⟩
  match putH with
  | .throw m => ⟨clipCatch m, cache, calls ++ [call]⟩
  | .ret p =>
    if p.ok then ⟨⟨true, some docId, some gid, none⟩, resetCache, calls ++ [call]⟩
    else ⟨⟨false, none, none, some (putDocErrMsg p.status)⟩, cache, calls ++ [call]⟩

/-- `clipContent` from the document fetch on (lines 1473–1581): GET, the
field-count eligibility checks in source order (more than one field,
then zero/absent fields), content assembly, append, PUT. -/
def clipAfterResolve (srv : String) (req : ClipRequest) (docId : Nat)
    (gid : String) (getH : JsOutcome GetDocHttp) (putH : JsOutcome PutHttp)
    (ts : String) (cache : Cache) (calls : List NetCall) : ClipOut :=
  let gcall : NetCall :=
    ⟨srv ++ "/api/v1/documents/" ++ toString docId, "GET", true, none⟩
  match getH with
  | .throw m => ⟨clipCatch m, cache, calls ++ [gcall]⟩
  | .ret g =>
    let calls := calls ++ [gcall]
    if !g.ok then ⟨⟨false, none, none, some (getDocErrMsg g.status)⟩, cache, calls⟩
    else
      match g.doc.fields with
      | some fs =>
        if 1 < fs.length then ⟨⟨false, none, none, some formBasedMsg⟩, cache, calls⟩
        else if fs.length = 0 then ⟨⟨false, none, none, some noFieldsMsg⟩, cache, calls⟩
        else
          let clippedHtml := formatClippedContent req ts
          let currentContent := (fs.head?.map RField.content).getD ""
          let fid := (fs.head?.map RField.id).getD 0
          clipPut srv docId gid fid (currentContent ++ clippedHtml) putH cache calls
      | none => ⟨⟨false, none, none, some noFieldsMsg⟩, cache, calls⟩

/-- `clipContent` (popup.js lines 1437–1596), minus the `activeRequests`
dedup wrapper (claim C4): auth check, target resolution (create when
`targetDoc.isNew`, propagating its failure result untouched), then
`clipAfterResolve`. -/
def clipContentCore (auth : Option Creds) (req : ClipRequest)
    (createH : JsOutcome CreateHttp) (getH : JsOutcome GetDocHttp)
    (putH : JsOutcome PutHttp) (ts : String) (cache : Cache) : ClipOut :=
  match auth with
  | none => ⟨⟨false, none, none, some "Not authenticated. Please reconnect."⟩, cache, []⟩
  | some cr =>
    if req.targetDoc.isNew then
      match createDocumentModel cr.serverUrl req.targetDoc.title createH with
      | (.throw m, ccalls) => ⟨clipCatch m, cache, ccalls⟩
      | (.ret r, ccalls) =>
        if r.success then
          clipAfterResolve cr.serverUrl req (r.documentId.getD 0) (r.globalId.getD "")
            getH putH ts cache ccalls
        else ⟨r, cache, ccalls⟩
    else
      clipAfterResolve cr.serverUrl req req.targetDoc.id req.targetDoc.globalId
        getH putH ts cache []

/-! ### Claim C3 -/

/-- Number of fields of a fetched document (absent `fields` counts 0). -/
def fieldsCount (d : RDoc) : Nat :=
  match d.fields with
  | some fs => fs.length
  | none => 0

theorem clipAfterResolve_ineligible (srv : String) (req : ClipRequest)
    (docId : Nat) (gid : String) (g : GetDocHttp) (putH : JsOutcome PutHttp)
    (ts : String) (cache : Cache) (calls : List NetCall)
    (hok : g.ok = true) (hf : fieldsCount g.doc ≠ 1) :
    clipAfterResolve srv req docId gid (.ret g) putH ts cache calls =
      ⟨⟨false, none, none,
          some (if 1 < fieldsCount g.doc then formBasedMsg else noFieldsMsg)⟩,
        cache,
        calls ++ [⟨srv ++ "/api/v1/documents/" ++ toString docId, "GET", true, none⟩]⟩ := by
  rw [clipAfterResolve]
  simp only [hok, Bool.not_true, Bool.false_eq_true, if_false]
  rcases hd : g.doc.fields with _ | fs
  · simp [fieldsCount, hd]
  · simp only [fieldsCount, hd] at hf ⊢
    by_cases hlen : 1 < fs.length
    · simp [hlen]
    · have h0 : fs.length = 0 := by omega
      simp [hlen, h0]

/-- C3: an authenticated clip whose document fetch returns zero fields
(or an absent field array) or more than one field fails with the
corresponding ineligibility message, issues no PUT, and leaves the cache
untouched. -/
theorem C3_ineligible_no_put (cr : Creds) (req : ClipRequest)
    (createH : JsOutcome CreateHttp) (g : GetDocHttp) (putH : JsOutcome PutHttp)
    (ts : String) (cache : Cache)
    (hcre : req.targetDoc.isNew = true → ∃ r, createH = .ret r ∧ r.ok = true)
    (hok : g.ok = true) (hf : fieldsCount g.doc ≠ 1) :
    (clipContentCore (some cr) req createH (.ret g) putH ts cache).res.success = false ∧
      (clipContentCore (some cr) req createH (.ret g) putH ts cache).res.error =
        some (if 1 < fieldsCount g.doc then formBasedMsg else noFieldsMsg) ∧
      ((clipContentCore (some cr) req createH (.ret g) putH ts cache).calls.all
        (fun call => call.method ≠ "PUT")) = true ∧
      (clipContentCore (some cr) req createH (.ret g) putH ts cache).cache = cache := by
  by_cases hnew : req.targetDoc.isNew = true
  · obtain ⟨r, hcr, hrok⟩ := hcre hnew
    subst hcr
    simp only [clipContentCore, hnew, if_true, createDocumentModel, hrok]
    rw [clipAfterResolve_ineligible _ _ _ _ _ _ _ _ _ hok hf]
    simp
  · simp only [clipContentCore, Bool.not_eq_true] at hnew ⊢
    simp only [hnew, Bool.false_eq_true, if_false]
    rw [clipAfterResolve_ineligible _ _ _ _ _ _ _ _ _ hok hf]
    simp

/-- C3 witness: an existing-document clip against a two-field document. -/
theorem C3_ineligible_no_put_witness :
    (clipContentCore (some ⟨"https://srv", "tok"⟩)
        ⟨⟨false, "", 7, "SD7"⟩, "<p>x</p>", "", "https://x.com", "X"⟩
        (.ret ⟨true, 201, none, "", 0, ""⟩)
        (.ret ⟨true, 200, ⟨"Doc", some [⟨1, "a"⟩, ⟨2, "b"⟩]⟩⟩)
        (.ret ⟨true, 200⟩) "ts" resetCache).res.success = false ∧
      (clipContentCore (some ⟨"https://srv", "tok"⟩)
        ⟨⟨false, "", 7, "SD7"⟩, "<p>x</p>", "", "https://x.com", "X"⟩
        (.ret ⟨true, 201, none, "", 0, ""⟩)
        (.ret ⟨true, 200, ⟨"Doc", some [⟨1, "a"⟩, ⟨2, "b"⟩]⟩⟩)
        (.ret ⟨true, 200⟩) "ts" resetCache).res.error =
        some (if 1 < fieldsCount ⟨"Doc", some [⟨1, "a"⟩, ⟨2, "b"⟩]⟩ then formBasedMsg
              else noFieldsMsg) ∧
      ((clipContentCore (some ⟨"https://srv", "tok"⟩)
        ⟨⟨false, "", 7, "SD7"⟩, "<p>x</p>", "", "https://x.com", "X"⟩
        (.ret ⟨true, 201, none, "", 0, ""⟩)
        (.ret ⟨true, 200, ⟨"Doc", some [⟨1, "a"⟩, ⟨2, "b"⟩]⟩⟩)
        (.ret ⟨true, 200⟩) "ts" resetCache).calls.all
          (fun call => call.method ≠ "PUT")) = true ∧
      (clipContentCore (some ⟨"https://srv", "tok"⟩)
        ⟨⟨false, "", 7, "SD7"⟩, "<p>x</p>", "", "https://x.com", "X"⟩
        (.ret ⟨true, 201, none, "", 0, ""⟩)
        (.ret ⟨true, 200, ⟨"Doc", some [⟨1, "a"⟩, ⟨2, "b"⟩]⟩⟩)
        (.ret ⟨true, 200⟩) "ts" resetCache).cache = resetCache :=
  C3_ineligible_no_put ⟨"https://srv", "tok"⟩
    ⟨⟨false, "", 7, "SD7"⟩, "<p>x</p>", "", "https://x.com", "X"⟩
    (.ret ⟨true, 201, none, "", 0, ""⟩)
    ⟨true, 200, ⟨"Doc", some [⟨1, "a"⟩, ⟨2, "b"⟩]⟩⟩
    (.ret ⟨true, 200⟩) "ts" resetCache
    (by intro h; exact absurd h (by decide)) rfl (by decide)

/-! ### Claim C2 -/

/-- The clip request of the end-to-end scenario: new document "Notes",
captured `<p>hi</p>`/"hi", empty note, source `https://x.com` / "X". -/
def c2Req : ClipRequest := ⟨⟨true, "Notes", 0, ""⟩, "<p>hi</p>", "", "https://x.com", "X"⟩

theorem formatClippedContent_c2 (ts : String) :
    formatClippedContent c2Req ts =
      "<div style=\"border-left: 3px solid #4a90e2; padding-left: 12px; margin: 20px 0;\"><p style=\"color: #666; font-size: 0.9em; margin: 0 0 8px 0;\">Clipped from <a href=\"https://x.com\">X</a> on " ++
        escapeHtmlStr ts ++
        "</p><div><p>hi</p></div></div>" := by
  have e1 : escapeHtmlStr "https://x.com" = "https://x.com" := rfl
  have e2 : escapeHtmlStr "X" = "X" := rfl
  have e3 : sanitizeClippedHtml "<p>hi</p>" = "<p>hi</p>" := by decide
  simp only [formatClippedContent, c2Req, e1, e2, e3]
  norm_num
  simp only [String.append_assoc]
  rw [← String.append_assoc, ← String.append_assoc, ← String.append_assoc,
    ← String.append_assoc, ← String.append_assoc, ← String.append_assoc]
  rfl

/-- C2: against an API whose create returns id 42 / `SD42` and whose
fetch returns that document with one empty field (of any field id), the
clip succeeds with `{success:true, documentId:42, globalId:"SD42"}`, and
the single PUT body is the empty existing content followed by the
attribution wrapper — attribution paragraph (no note paragraph), then
the captured HTML in an inner div. -/
theorem C2_end_to_end (ts : String) (fid : Nat) (cache : Cache) :
    (clipContentCore (some ⟨"https://srv", "tok"⟩) c2Req
        (.ret ⟨true, 201, none, "", 42, "SD42"⟩)
        (.ret ⟨true, 200, ⟨"Notes", some [⟨fid, ""⟩]⟩⟩)
        (.ret ⟨true, 200⟩) ts cache).res = ⟨true, some 42, some "SD42", none⟩ ∧
      ((clipContentCore (some ⟨"https://srv", "tok"⟩) c2Req
        (.ret ⟨true, 201, none, "", 42, "SD42"⟩)
        (.ret ⟨true, 200, ⟨"Notes", some [⟨fid, ""⟩]⟩⟩)
        (.ret ⟨true, 200⟩) ts cache).calls.filterMap (fun c => c.putBody)) =
        [(fid,
          "<div style=\"border-left: 3px solid #4a90e2; padding-left: 12px; margin: 20px 0;\"><p style=\"color: #666; font-size: 0.9em; margin: 0 0 8px 0;\">Clipped from <a href=\"https://x.com\">X</a> on " ++
            escapeHtmlStr ts ++
            "</p><div><p>hi</p></div></div>")] := by
  have hn : c2Req.targetDoc.isNew = true := rfl
  simp only [clipContentCore, createDocumentModel, clipAfterResolve, clipPut, hn]
  norm_num
  rw [formatClippedContent_c2]
  simp

/-! ### Claim C6 -/

/-- C6: whenever the list response is consumed from the network (empty
cache here) and carries a positive `totalHits` `t`, the returned
`hasMore` — computed by the code as `(page+1) < ceil(t/50)` — agrees
with the spec's formula `(page+1)·50 < t`, for every page and every
positive `t`. -/
theorem C6_hasMore_formula (p now t : Nat) (cr : Creds) (docs : List DocEntry)
    (ht : 0 < t) :
    (getDocumentsModel p now (some cr) (.ret ⟨true, 200, docs, some t⟩)
        resetCache).res.hasMore = decide ((p + 1) * 50 < t) := by
  have hfresh : cacheFresh resetCache now = false := rfl
  simp only [getDocumentsModel, hfresh, Bool.and_false, Bool.false_eq_true, if_false,
    Bool.not_true, DEFAULT_PAGE_SIZE]
  have hne : ¬t = 0 := by omega
  simp only [hne, if_false]
  simp only [decide_eq_decide]
  omega

theorem C6_hasMore_formula_witness :
    (getDocumentsModel 1 0 (some ⟨"https://srv", "tok"⟩)
        (.ret ⟨true, 200, [], some 101⟩) resetCache).res.hasMore =
      decide ((1 + 1) * 50 < 101) :=
  C6_hasMore_formula 1 0 101 ⟨"https://srv", "tok"⟩ [] (by decide)

/-! ## Request deduplication (popup.js lines 1190–1191, 1344–1353,
1430–1434, 1440–1446, 1589–1595, 1680–1686, 1759–1765)

The `activeRequests` map keyed by `"documents_<page>"`, `"clipContent"`,
`"clipPdf"`.  Each operation synchronously checks `has(key)` — returning
the registered promise when present — or registers its own promise; the
`finally` clause deletes the key on completion, success or failure.  The
check-then-set pair contains no `await`, so under the single-threaded
interleaving of the runtime it is one atomic step; an operation's promise
is identified by the operation id, and callers holding the same id
receive the identical settled result.  A trace is a list of atomic
call/complete events against the registry state. -/

structure RegState where
  registry : List (String × Nat)
  nextId : Nat
  started : List (String × Nat)

inductive DedupEv where
  | call (key : String)
  | complete (key : String) (ok : Bool)

inductive CallOutcome where
  | newOp (opId : Nat)
  | joined (opId : Nat)

def lookupKey (r : List (String × Nat)) (k : String) : Option Nat :=
  (r.find? (fun e => e.1 = k)).map (fun e => e.2)

/-- One atomic event: a `call` either joins the in-flight operation for
its key (`activeRequests.get`) or registers a fresh one and starts its
network sequence (`started` log); a `complete` is the `finally` deletion,
regardless of success. -/
def dedupStep (s : RegState) : DedupEv → RegState × Option CallOutcome
  | .call k =>
    match lookupKey s.registry k with
    | some i => (s, some (.joined i))
    | none =>
      (⟨(k, s.nextId) :: s.registry, s.nextId + 1, s.started ++ [(k, s.nextId)]⟩,
        some (.newOp s.nextId))
  | .complete k _ => (⟨s.registry.filter (fun e => e.1 ≠ k), s.nextId, s.started⟩, none)

def dedupRun (s : RegState) : List DedupEv → RegState
  | [] => s
  | e :: t => dedupRun (dedupStep s e).1 t

/-- At most one registry entry per key. -/
def keysUnique (s : RegState) : Prop :=
  (s.registry.map Prod.fst).Nodup

def initReg : RegState := ⟨[], 0, []⟩

theorem dedupStep_preserves_unique (s : RegState) (e : DedupEv)
    (h : keysUnique s) : keysUnique (dedupStep s e).1 := by
  cases e with
  | call k =>
    rcases hl : lookupKey s.registry k with _ | i
    · have hnone : s.registry.find? (fun e => e.1 = k) = none := by
        rw [lookupKey] at hl
        rcases hf : s.registry.find? (fun e => e.1 = k) with _ | v
        · exact hf
        · rw [hf] at hl; simp at hl
      rw [List.find?_eq_none] at hnone
      simp only [dedupStep, hl, keysUnique, List.map_cons]
      refine List.nodup_cons.mpr ⟨?_, h⟩
      intro hmem
      rw [List.mem_map] at hmem
      obtain ⟨a, ha, hak⟩ := hmem
      have hne := hnone a ha
      simp only [decide_eq_true_eq] at hne
      exact hne hak
    · simp only [dedupStep, hl]
      exact h
  | complete k ok =>
    simp only [dedupStep, keysUnique]
    exact List.Nodup.sublist ((List.filter_sublist _).map Prod.fst) h

theorem dedupRun_unique (evs : List DedupEv) :
    keysUnique (dedupRun initReg evs) := by
  have hgen : ∀ (l : List DedupEv) (s : RegState), keysUnique s →
      keysUnique (dedupRun s l) := by
    intro l
    induction l with
    | nil => intro s hs; exact hs
    | cons e t ih => intro s hs; exact ih _ (dedupStep_preserves_unique s e hs)
  exact hgen evs initReg (by simp [keysUnique, initReg])

/-! ### Claim C4 -/

/-- C4: (i) a call arriving while an operation with the same key is in
flight changes nothing — no new network sequence is started (the state,
`started` log included, is exactly the state left by the first call) and
the caller receives the first operation's id, hence the identical settled
result; (ii) completion removes the key's registry entry whether the
operation succeeded or failed; (iii) along any event trace from the empty
registry, the registry never holds two entries for one key — at most one
operation per key is in flight. -/
theorem C4_dedup_protocol :
    (∀ (s : RegState) (k : String) (i : Nat) (s₁ : RegState),
        dedupStep s (.call k) = (s₁, some (.newOp i)) →
          dedupStep s₁ (.call k) = (s₁, some (.joined i))) ∧
      (∀ (s : RegState) (k : String) (ok : Bool),
        lookupKey ((dedupStep s (.complete k ok)).1).registry k = none) ∧
      (∀ evs : List DedupEv, keysUnique (dedupRun initReg evs)) := by
  refine ⟨?_, ?_, dedupRun_unique⟩
  · intro s k i s₁ hstep
    rcases hl : lookupKey s.registry k with _ | j
    · simp only [dedupStep, hl] at hstep
      obtain ⟨hs₁, houtcome⟩ := Prod.mk.injEq .. ▸ hstep
      injection hstep with hs hre
      injection hre with hre2
      injection hre2 with hi
      subst hi
      subst hs
      simp [dedupStep, lookupKey, List.find?]
    · simp only [dedupStep, hl] at hstep
      injection hstep with hs hre
      injection hre with hre2
      exact absurd hre2 (by intro hx; injection hx)
  · intro s k ok
    rw [dedupStep]
    simp only [lookupKey]
    rcases hf : (s.registry.filter (fun e => e.1 ≠ k)).find? (fun e => e.1 = k)
      with _ | v
    · rw [hf]; rfl
    · have hv := List.find?_some hf
      have hmem := List.mem_filter.mp (List.mem_of_find?_eq_some hf)
      simp only [decide_eq_true_eq] at hv
      have := hmem.2
      simp only [hv, decide_not] at this
      simp at this

theorem C4_dedup_protocol_witness :
    dedupStep ⟨[("clipContent", 0)], 1, [("clipContent", 0)]⟩ (.call "clipContent") =
        (⟨[("clipContent", 0)], 1, [("clipContent", 0)]⟩, some (.joined 0)) ∧
      lookupKey ((dedupStep ⟨[("clipPdf", 3)], 4, [("clipPdf", 3)]⟩
        (.complete "clipPdf" false)).1).registry "clipPdf" = none :=
  ⟨C4_dedup_protocol.1 initReg "clipContent" 0
      ⟨[("clipContent", 0)], 1, [("clipContent", 0)]⟩ rfl,
    C4_dedup_protocol.2.1 ⟨[("clipPdf", 3)], 4, [("clipPdf", 3)]⟩ "clipPdf" false⟩

/-! ## handleAuth, fetchWithTimeout, and the PDF clip path -/

structure AuthHttp where
  ok : Bool
  status : Nat

structure AuthResult where
  success : Bool
  error : Option String

structure AuthOut where
  res : AuthResult
  cache : Cache
  calls : List NetCall

/-- `handleAuth` (popup.js lines 1292–1342): status probe through
`fetchWithTimeout`, 401/404 mapping, cache reset on success (credential
storage itself is not modelled). -/
def handleAuthModel (serverUrl : String) (resp : JsOutcome AuthHttp)
    (c : Cache) : AuthOut :=
  let call : NetCall := ⟨serverUrl ++ "/api/v1/status", "GET", true, none⟩
  match resp with
  | .throw m =>
    ⟨⟨false,
      some (if m = "Request timeout" then
              "Connection timeout. Please check your network and try again."
            else "Authentication failed. Please check your connection.")⟩, c, [call]⟩
  | .ret r =>
    if !r.ok then
      ⟨⟨false,
        some (if r.status = 401 then "Invalid API key"
              else if r.status = 404 then "Server endpoint not found. Please check the URL."
              else getHttpErrorMessage r.status)⟩, c, [call]⟩
    else ⟨⟨true, none⟩, resetCache, [call]⟩

/-- `CONFIG.API.REQUEST_TIMEOUT_MS` (config.js). -/
def REQUEST_TIMEOUT_MS : Nat := 30000

/-- The background redefinition's default `CONFIG.API.TIMEOUT_MS || 30000`
(popup.js line 1969): `TIMEOUT_MS` is not defined in the config, so the
`||` falls through to 30000. -/
def bgFetchTimeoutDefault : Nat := 30000

/-- `fetchWithTimeout` (config.js; redefined popup.js lines 1969–1987):
an elapsed timer aborts the request and surfaces as a thrown
`Request timeout`; otherwise the response is returned. -/
def fetchWithTimeoutModel {α : Type} (timedOut : Bool) (resp : α) : JsOutcome α :=
  if timedOut then .throw "Request timeout" else .ret resp

/-- The `/api/v1/files` upload response as `uploadPdfToRSpace` consumes
it. -/
structure UploadHttp where
  ok : Bool
  status : Nat
  id : Option String
  globalId : Option String
  selfLink : Option String

/-- First match of `pat` followed by at least one digit; returns the
digit run (the JS `.match(...)[1]` capture for `/GL(\d+)/` and
`/\/files\/(\d+)/`). -/
def findDigitsAfter (pat : List Char) : List Char → Option (List Char)
  | [] => none
  | c :: t =>
    if isStart pat (c :: t) then
      let ds := (List.drop pat.length (c :: t)).takeWhile Char.isDigit
      if ds.length = 0 then findDigitsAfter pat t else some ds
    else findDigitsAfter pat t

/-- `uploadPdfToRSpace` (popup.js lines 1820–1866).  The POST to
`/api/v1/files` uses the bare `fetch`, not `fetchWithTimeout` — the
logged call is unwrapped.  (The preliminary `fetch(pdfDataUrl)` decodes a
data: URL in-process and is no server request.)  File-id extraction tries
`data.id`, then `GL(\d+)` on `data.globalId`, then `\/files\/(\d+)` on
`data._links.self`; errors and non-2xx responses yield `null`. -/
def uploadPdfToRSpace (srv fileName : String) (up : JsOutcome UploadHttp) :
    Option String × List NetCall :=
  let call : NetCall := ⟨srv ++ "/api/v1/files", "POST", false, none⟩
  match up with
  | .throw _ => (none, [call])
  | .ret r =>
    if !r.ok then (none, [call])
    else
      (match r.id with
       | some i => some i
       | none =>
         match r.globalId.bind
             (fun g => (findDigitsAfter "GL".toList g.toList).map String.mk) with
         | some d => some d
         | none =>
           r.selfLink.bind
             (fun l => (findDigitsAfter "/files/".toList l.toList).map String.mk),
       [call])

/-- The trimmed attachment-marker template of `linkFileToDocument`
(popup.js lines 1910–1922). -/
def pdfLinkHtml (req : ClipRequest) (ts fileId : String) : String :=
  let safeUrl := escapeHtmlStr req.sourceUrl
  let safeTitle := escapeHtmlStr req.sourceTitle
  let safeNote := if req.note = "" then "" else escapeHtmlStr req.note
  let safeTimestamp := escapeHtmlStr ts
  strTrim
    ("\n      <div style=\"border-left: 3px solid #4a90e2; padding-left: 12px; margin: 20px 0;\">\n        <p style=\"color: #666; font-size: 0.9em; margin: 0 0 8px 0;\">\n          PDF clipped from <a href=\"" ++
      safeUrl ++ "\">" ++ safeTitle ++ "</a> on " ++ safeTimestamp ++
      "\n        </p>\n        " ++
      (if safeNote ≠ "" then
        "\n        <p style=\"background: #fffde7; padding: 8px; border-radius: 4px; margin: 8px 0;\">\n          <strong>Note:</strong> " ++
          safeNote ++ "\n        </p>\n        "
       else "") ++
      "\n        <p><fileId=" ++ fileId ++ "></p>\n      </div>\n    ")

/-- `linkFileToDocument` (popup.js lines 1871–1955): GET (wrapped), the
same single-field checks as the append path, marker assembly, PUT
(wrapped); every failure, thrown errors included, returns `false`. -/
def linkFileToDocument (srv : String) (docId : Nat) (fileId : String)
    (req : ClipRequest) (ts : String) (getH : JsOutcome GetDocHttp)
    (putH : JsOutcome PutHttp) : Bool × List NetCall :=
  let gcall : NetCall := ⟨srv ++ "/api/v1/documents/" ++ toString docId, "GET", true, none⟩
  match getH with
  | .throw _ => (false, [gcall])
  | .ret g =>
    if !g.ok then (false, [gcall])
    else
      match g.doc.fields with
      | some fs =>
        if 1 < fs.length then (false, [gcall])
        else if fs.length = 0 then (false, [gcall])
        else
          let html := pdfLinkHtml req ts fileId
          let currentContent := (fs.head?.map RField.content).getD ""
          let fid := (fs.head?.map RField.id).getD 0
          let pcall : NetCall :=
            ⟨srv ++ "/api/v1/documents/" ++ toString docId, "PUT", true,
              some (fid, currentContent ++ html)⟩
          match putH with
          | .throw _ => (false, [gcall, pcall])
          | .ret p => (p.ok, [gcall, pcall])
      | none => (false, [gcall])

/-- `clipPdf`'s catch clause (lines 1752–1758). -/
def clipPdfCatch (m : String) : ClipResult :=
  if m = "Request timeout" then
    ⟨false, none, none, some "Request timeout. Please try again."⟩
  else ⟨false, none, none, some ("An error occurred while clipping PDF: " ++ m)⟩

/-- `sanitizeFilename` (popup.js lines 1960–1964). -/
def sanitizeFilename (s : String) : String :=
  String.mk ((s.toList.map (fun c =>
    if c.isAlpha || c.isDigit || c = '_' || c = '-' || c = '.' then c else '_')).take 100)

/-- `clipPdf` from the resolved target on (lines 1722–1751): upload,
file-id check, link, cache invalidation on success. -/
def clipPdfAfterResolve (srv : String) (req : ClipRequest) (docId : Nat)
    (gid : String) (up : JsOutcome UploadHttp) (getH : JsOutcome GetDocHttp)
    (putH : JsOutcome PutHttp) (ts : String) (cache : Cache)
    (calls : List NetCall) : ClipOut :=
  let fileName :=
    sanitizeFilename (if req.sourceTitle = "" then "page" else req.sourceTitle) ++ ".pdf"
  match uploadPdfToRSpace srv fileName up with
  | (none, ucalls) =>
    ⟨⟨false, none, none, some "Failed to upload PDF file"⟩, cache, calls ++ ucalls⟩
  | (some fileId, ucalls) =>
    match linkFileToDocument srv docId fileId req ts getH putH with
    | (false, lcalls) =>
      ⟨⟨false, none, none, some "Failed to link PDF to document"⟩, cache,
        calls ++ ucalls ++ lcalls⟩
    | (true, lcalls) =>
      ⟨⟨true, some docId, some gid, none⟩, resetCache, calls ++ ucalls ++ lcalls⟩

/-- `clipPdf` (popup.js lines 1677–1766), minus the dedup wrapper: auth
check, PDF generation outcome (`none` when `generatePdfFromTab` returned
null), target resolution, then upload/link. -/
def clipPdfModel (auth : Option Creds) (req : ClipRequest) (tabPdf : Option String)
    (createH : JsOutcome CreateHttp) (up : JsOutcome UploadHttp)
    (getH : JsOutcome GetDocHttp) (putH : JsOutcome PutHttp) (ts : String)
    (cache : Cache) : ClipOut :=
  match auth with
  | none => ⟨⟨false, none, none, some "Not authenticated. Please reconnect."⟩, cache, []⟩
  | some cr =>
    match tabPdf with
    | none => ⟨⟨false, none, none, some "Failed to generate PDF from page"⟩, cache, []⟩
    | some _ =>
      if req.targetDoc.isNew then
        match createDocumentModel cr.serverUrl req.targetDoc.title createH with
        | (.throw m, ccalls) => ⟨clipPdfCatch m, cache, ccalls⟩
        | (.ret r, ccalls) =>
          if r.success then
            clipPdfAfterResolve cr.serverUrl req (r.documentId.getD 0)
              (r.globalId.getD "") up getH putH ts cache ccalls
          else ⟨r, cache, ccalls⟩
      else
        clipPdfAfterResolve cr.serverUrl req req.targetDoc.id req.targetDoc.globalId
          up getH putH ts cache []

/-! ### Claim C5 -/

theorem clipCatch_not_success (m : String) : (clipCatch m).success = false := by
  rw [clipCatch]; split <;> rfl

theorem clipPdfCatch_not_success (m : String) : (clipPdfCatch m).success = false := by
  rw [clipPdfCatch]; split <;> rfl

theorem clipPut_success_cache (srv : String) (docId : Nat) (gid : String)
    (fid : Nat) (content : String) (putH : JsOutcome PutHttp) (cache : Cache)
    (calls : List NetCall)
    (h : (clipPut srv docId gid fid content putH cache calls).res.success = true) :
    (clipPut srv docId gid fid content putH cache calls).cache = resetCache := by
  cases putH with
  | throw m => simp [clipPut, clipCatch_not_success] at h
  | ret p =>
    by_cases hp : p.ok = true
    · simp [clipPut, hp]
    · simp [clipPut, hp] at h

theorem clipAfterResolve_success_cache (srv : String) (req : ClipRequest)
    (docId : Nat) (gid : String) (getH : JsOutcome GetDocHttp)
    (putH : JsOutcome PutHttp) (ts : String) (cache : Cache) (calls : List NetCall)
    (h : (clipAfterResolve srv req docId gid getH putH ts cache calls).res.success = true) :
    (clipAfterResolve srv req docId gid getH putH ts cache calls).cache = resetCache := by
  cases getH with
  | throw m => simp [clipAfterResolve, clipCatch_not_success] at h
  | ret g =>
    by_cases hok : g.ok = true
    · rcases hf : g.doc.fields with _ | fs
      · simp [clipAfterResolve, hok, hf] at h
      · by_cases h1 : 1 < fs.length
        · simp [clipAfterResolve, hok, hf, h1] at h
        · by_cases h0 : fs.length = 0
          · simp [clipAfterResolve, hok, hf, h1, h0] at h
          · simp only [clipAfterResolve, hok, Bool.not_true, Bool.false_eq_true,
              if_false, hf, h1, h0, if_neg] at h ⊢
            exact clipPut_success_cache _ _ _ _ _ _ _ _ h
    · simp [clipAfterResolve, hok] at h

/-- A successful `clipContent` always leaves the reset (invalidated)
cache. -/
theorem clipContentCore_success_cache (auth : Option Creds) (req : ClipRequest)
    (createH : JsOutcome CreateHttp) (getH : JsOutcome GetDocHttp)
    (putH : JsOutcome PutHttp) (ts : String) (cache : Cache)
    (h : (clipContentCore auth req createH getH putH ts cache).res.success = true) :
    (clipContentCore auth req createH getH putH ts cache).cache = resetCache := by
  cases auth with
  | none => simp [clipContentCore] at h
  | some cr =>
    by_cases hnew : req.targetDoc.isNew = true
    · cases createH with
      | throw m =>
        simp [clipContentCore, hnew, createDocumentModel, clipCatch_not_success] at h
      | ret r =>
        by_cases hr : r.ok = true
        · simp only [clipContentCore, hnew, if_true, createDocumentModel, hr] at h ⊢
          exact clipAfterResolve_success_cache _ _ _ _ _ _ _ _ _ h
        · simp [clipContentCore, hnew, createDocumentModel, hr] at h
    · simp only [Bool.not_eq_true] at hnew
      simp only [clipContentCore, hnew, Bool.false_eq_true, if_false] at h ⊢
      exact clipAfterResolve_success_cache _ _ _ _ _ _ _ _ _ h

theorem clipPdfAfterResolve_success_cache (srv : String) (req : ClipRequest)
    (docId : Nat) (gid : String) (up : JsOutcome UploadHttp)
    (getH : JsOutcome GetDocHttp) (putH : JsOutcome PutHttp) (ts : String)
    (cache : Cache) (calls : List NetCall)
    (h : (clipPdfAfterResolve srv req docId gid up getH putH ts cache calls).res.success = true) :
    (clipPdfAfterResolve srv req docId gid up getH putH ts cache calls).cache = resetCache := by
  rw [clipPdfAfterResolve] at h ⊢
  rcases hu : uploadPdfToRSpace srv
      (sanitizeFilename (if req.sourceTitle = "" then "page" else req.sourceTitle) ++ ".pdf")
      up with ⟨_ | fileId, ucalls⟩
  · simp [hu] at h
  · rcases hl : linkFileToDocument srv docId fileId req ts getH putH with ⟨ok, lcalls⟩
    cases ok with
    | false => simp [hu, hl] at h
    | true => simp [hu, hl]

/-- A successful `clipPdf` always leaves the reset cache. -/
theorem clipPdfModel_success_cache (auth : Option Creds) (req : ClipRequest)
    (tabPdf : Option String) (createH : JsOutcome CreateHttp)
    (up : JsOutcome UploadHttp) (getH : JsOutcome GetDocHttp)
    (putH : JsOutcome PutHttp) (ts : String) (cache : Cache)
    (h : (clipPdfModel auth req tabPdf createH up getH putH ts cache).res.success = true) :
    (clipPdfModel auth req tabPdf createH up getH putH ts cache).cache = resetCache := by
  cases auth with
  | none => simp [clipPdfModel] at h
  | some cr =>
    cases tabPdf with
    | none => simp [clipPdfModel] at h
    | some pdf =>
      by_cases hnew : req.targetDoc.isNew = true
      · cases createH with
        | throw m =>
          simp [clipPdfModel, hnew, createDocumentModel, clipPdfCatch_not_success] at h
        | ret r =>
          by_cases hr : r.ok = true
          · simp only [clipPdfModel, hnew, if_true, createDocumentModel, hr] at h ⊢
            exact clipPdfAfterResolve_success_cache _ _ _ _ _ _ _ _ _ _ h
          · simp [clipPdfModel, hnew, createDocumentModel, hr] at h
      · simp only [Bool.not_eq_true] at hnew
        simp only [clipPdfModel, hnew, Bool.false_eq_true, if_false] at h ⊢
        exact clipPdfAfterResolve_success_cache _ _ _ _ _ _ _ _ _ _ h

theorem getDocs_fresh_read (now : Nat) (cr : Creds) (net : JsOutcome ListHttp)
    (d : List DocEntry) (ts tp : Nat) (hts : ts ≠ 0) (hlt : now - ts < TTL_MS) :
    (getDocumentsModel 0 now (some cr) net
        ⟨some d, some ts, TTL_MS, some tp, DEFAULT_PAGE_SIZE⟩).calls = [] ∧
      (getDocumentsModel 0 now (some cr) net
        ⟨some d, some ts, TTL_MS, some tp, DEFAULT_PAGE_SIZE⟩).res.success = true ∧
      (getDocumentsModel 0 now (some cr) net
        ⟨some d, some ts, TTL_MS, some tp, DEFAULT_PAGE_SIZE⟩).cache =
        ⟨some d, some ts, TTL_MS, some tp, DEFAULT_PAGE_SIZE⟩ := by
  have hf : cacheFresh ⟨some d, some ts, TTL_MS, some tp, DEFAULT_PAGE_SIZE⟩ now = true := by
    simp only [cacheFresh, Bool.and_eq_true, bne_iff_ne, ne_eq, decide_eq_true_eq]
    exact ⟨hts, hlt⟩
  simp [getDocumentsModel, hf]

/-- C5: (i) after a network-served successful `getDocuments(0)` at time
`now₁`, a second `getDocuments(0)` at `now₂` within the 5-minute TTL —
whatever its network outcome would have been — issues no request,
succeeds, and leaves the cache exactly as it was (reads never
invalidate); (ii) a successful `clipContent` resets the cache; (iii) so
does a successful `clipPdf`; (iv) with a reset (`data = null`) cache,
`getDocuments(0)` always issues a network request; (v) a call for any
page other than 0 never touches the cache. -/
theorem C5_cache_policy :
    (∀ (cr cr' : Creds) (now₁ now₂ status : Nat) (docs : List DocEntry)
        (th : Option Nat) (net₂ : JsOutcome ListHttp),
        0 < now₁ → now₂ - now₁ < TTL_MS →
        (getDocumentsModel 0 now₂ (some cr') net₂
            (getDocumentsModel 0 now₁ (some cr) (.ret ⟨true, status, docs, th⟩)
              resetCache).cache).calls = [] ∧
          (getDocumentsModel 0 now₂ (some cr') net₂
            (getDocumentsModel 0 now₁ (some cr) (.ret ⟨true, status, docs, th⟩)
              resetCache).cache).res.success = true ∧
          (getDocumentsModel 0 now₂ (some cr') net₂
            (getDocumentsModel 0 now₁ (some cr) (.ret ⟨true, status, docs, th⟩)
              resetCache).cache).cache =
            (getDocumentsModel 0 now₁ (some cr) (.ret ⟨true, status, docs, th⟩)
              resetCache).cache) ∧
      (∀ (auth : Option Creds) (req : ClipRequest) (createH : JsOutcome CreateHttp)
          (getH : JsOutcome GetDocHttp) (putH : JsOutcome PutHttp) (ts : String)
          (cache : Cache),
          (clipContentCore auth req createH getH putH ts cache).res.success = true →
          (clipContentCore auth req createH getH putH ts cache).cache = resetCache) ∧
      (∀ (auth : Option Creds) (req : ClipRequest) (tabPdf : Option String)
          (createH : JsOutcome CreateHttp) (up : JsOutcome UploadHttp)
          (getH : JsOutcome GetDocHttp) (putH : JsOutcome PutHttp) (ts : String)
          (cache : Cache),
          (clipPdfModel auth req tabPdf createH up getH putH ts cache).res.success = true →
          (clipPdfModel auth req tabPdf createH up getH putH ts cache).cache = resetCache) ∧
      (∀ (now : Nat) (cr : Creds) (net : JsOutcome ListHttp) (c : Cache),
          c.data = none → (getDocumentsModel 0 now (some cr) net c).calls ≠ []) ∧
      (∀ (p now : Nat) (auth : Option Creds) (net : JsOutcome ListHttp) (c : Cache),
          ¬p = 0 → (getDocumentsModel p now auth net c).cache = c) := by
  refine ⟨?_, clipContentCore_success_cache, clipPdfModel_success_cache, ?_, ?_⟩
  · intro cr cr' now₁ now₂ status docs th net₂ h1 h2
    have hfresh₀ : cacheFresh resetCache now₁ = false := rfl
    simp only [getDocumentsModel, hfresh₀, Bool.and_false, Bool.false_eq_true, if_false,
      Bool.not_true, if_true]
    exact getDocs_fresh_read now₂ cr' net₂ _ now₁ _ (by omega) h2
  · intro now cr net c hdata
    rcases c with ⟨data, tsp, ttl, tp, ps⟩
    simp only at hdata
    subst hdata
    have hfresh : cacheFresh ⟨none, tsp, ttl, tp, ps⟩ now = false := rfl
    simp only [getDocumentsModel, hfresh, Bool.and_false, Bool.false_eq_true, if_false]
    cases net with
    | throw m => simp
    | ret r =>
      by_cases hok : r.ok = true <;> simp [hok]
  · intro p now auth net c hp
    cases auth with
    | none => rfl
    | some cr =>
      have hcond : (decide (p = 0) && cacheFresh c now) = false := by
        simp [hp]
      simp only [getDocumentsModel, hcond, Bool.false_eq_true, if_false]
      cases net with
      | throw m => rfl
      | ret r =>
        by_cases hok : r.ok = true
        · simp [hok, hp]
        · simp [hok]

theorem C5_cache_policy_witness :
    (getDocumentsModel 0 2000 (some ⟨"https://other", "tok2"⟩) (.throw "network down")
        (getDocumentsModel 0 1000 (some ⟨"https://srv", "tok"⟩)
          (.ret ⟨true, 200, [⟨5, "SD5", "Doc5"⟩], some 1⟩) resetCache).cache).calls = [] ∧
      (getDocumentsModel 0 2000 (some ⟨"https://other", "tok2"⟩) (.throw "network down")
        (getDocumentsModel 0 1000 (some ⟨"https://srv", "tok"⟩)
          (.ret ⟨true, 200, [⟨5, "SD5", "Doc5"⟩], some 1⟩) resetCache).cache).res.success = true ∧
      (getDocumentsModel 0 2000 (some ⟨"https://other", "tok2"⟩) (.throw "network down")
        (getDocumentsModel 0 1000 (some ⟨"https://srv", "tok"⟩)
          (.ret ⟨true, 200, [⟨5, "SD5", "Doc5"⟩], some 1⟩) resetCache).cache).cache =
        (getDocumentsModel 0 1000 (some ⟨"https://srv", "tok"⟩)
          (.ret ⟨true, 200, [⟨5, "SD5", "Doc5"⟩], some 1⟩) resetCache).cache :=
  C5_cache_policy.1 ⟨"https://srv", "tok"⟩ ⟨"https://other", "tok2"⟩ 1000 2000 200
    [⟨5, "SD5", "Doc5"⟩] (some 1) (.throw "network down") (by decide) (by decide)

/-! ### Claim C8 -/

theorem createDocumentModel_wrapped (srv title : String) (h : JsOutcome CreateHttp) :
    ((createDocumentModel srv title h).2).all (fun c => c.wrapped) = true := by
  cases h with
  | throw m => rfl
  | ret r => rw [createDocumentModel]; split <;> rfl

theorem clipPut_wrapped (srv : String) (docId : Nat) (gid : String) (fid : Nat)
    (content : String) (putH : JsOutcome PutHttp) (cache : Cache)
    (calls : List NetCall) (hc : calls.all (fun c => c.wrapped) = true) :
    ((clipPut srv docId gid fid content putH cache calls).calls).all
      (fun c => c.wrapped) = true := by
  cases putH with
  | throw m => simp [clipPut, List.all_append, hc]
  | ret p =>
    by_cases hp : p.ok = true <;> simp [clipPut, hp, List.all_append, hc]

theorem clipAfterResolve_wrapped (srv : String) (req : ClipRequest) (docId : Nat)
    (gid : String) (getH : JsOutcome GetDocHttp) (putH : JsOutcome PutHttp)
    (ts : String) (cache : Cache) (calls : List NetCall)
    (hc : calls.all (fun c => c.wrapped) = true) :
    ((clipAfterResolve srv req docId gid getH putH ts cache calls).calls).all
      (fun c => c.wrapped) = true := by
  cases getH with
  | throw m => simp [clipAfterResolve, List.all_append, hc]
  | ret g =>
    by_cases hok : g.ok = true
    · rcases hf : g.doc.fields with _ | fs
      · simp [clipAfterResolve, hok, hf, List.all_append, hc]
      · by_cases h1 : 1 < fs.length
        · simp [clipAfterResolve, hok, hf, h1, List.all_append, hc]
        · by_cases h0 : fs.length = 0
          · simp [clipAfterResolve, hok, hf, h1, h0, List.all_append, hc]
          · simp only [clipAfterResolve, hok, Bool.not_true, Bool.false_eq_true,
              if_false, hf, h1, h0, if_neg]
            exact clipPut_wrapped _ _ _ _ _ _ _ _
              (by simp [List.all_append, hc])
    · simp [clipAfterResolve, hok, List.all_append, hc]

theorem clipContentCore_wrapped (auth : Option Creds) (req : ClipRequest)
    (createH : JsOutcome CreateHttp) (getH : JsOutcome GetDocHttp)
    (putH : JsOutcome PutHttp) (ts : String) (cache : Cache) :
    ((clipContentCore auth req createH getH putH ts cache).calls).all
      (fun c => c.wrapped) = true := by
  cases auth with
  | none => rfl
  | some cr =>
    by_cases hnew : req.targetDoc.isNew = true
    · cases createH with
      | throw m => simp [clipContentCore, hnew, createDocumentModel]
      | ret r =>
        by_cases hr : r.ok = true
        · simp only [clipContentCore, hnew, if_true, createDocumentModel, hr]
          exact clipAfterResolve_wrapped _ _ _ _ _ _ _ _ _ (by rfl)
        · simp [clipContentCore, hnew, createDocumentModel, hr]
    · simp only [Bool.not_eq_true] at hnew
      simp only [clipContentCore, hnew, Bool.false_eq_true, if_false]
      exact clipAfterResolve_wrapped _ _ _ _ _ _ _ _ _ rfl

theorem linkFileToDocument_wrapped (srv : String) (docId : Nat) (fileId : String)
    (req : ClipRequest) (ts : String) (getH : JsOutcome GetDocHttp)
    (putH : JsOutcome PutHttp) :
    ((linkFileToDocument srv docId fileId req ts getH putH).2).all
      (fun c => c.wrapped) = true := by
  cases getH with
  | throw m => rfl
  | ret g =>
    by_cases hok : g.ok = true
    · rcases hf : g.doc.fields with _ | fs
      · simp [linkFileToDocument, hok, hf]
      · by_cases h1 : 1 < fs.length
        · simp [linkFileToDocument, hok, hf, h1]
        · by_cases h0 : fs.length = 0
          · simp [linkFileToDocument, hok, hf, h1, h0]
          · cases putH <;> simp [linkFileToDocument, hok, hf, h1, h0]
    · simp [linkFileToDocument, hok]

theorem handleAuthModel_wrapped (serverUrl : String) (resp : JsOutcome AuthHttp)
    (c : Cache) :
    ((handleAuthModel serverUrl resp c).calls).all (fun c => c.wrapped) = true := by
  cases resp with
  | throw m => rfl
  | ret r => rw [handleAuthModel]; split <;> rfl

theorem getDocumentsModel_wrapped (page now : Nat) (auth : Option Creds)
    (net : JsOutcome ListHttp) (c : Cache) :
    ((getDocumentsModel page now auth net c).calls).all (fun c => c.wrapped) = true := by
  cases auth with
  | none => rfl
  | some cr =>
    by_cases hcond : (decide (page = 0) && cacheFresh c now) = true
    · simp [getDocumentsModel, hcond]
    · simp only [getDocumentsModel, hcond, Bool.false_eq_true, if_false]
      cases net with
      | throw m => rfl
      | ret r =>
        by_cases hok : r.ok = true <;> simp [hok]

/-- C8 counterexample: a complete successful `clipPdf` run issues exactly
one call outside the timeout wrapper — the PDF file-upload POST to
`/api/v1/files`, which the source performs with the bare `fetch`
(popup.js line 1833).  So not every network call of the client layer is
timeout-bounded. -/
theorem C8_upload_unwrapped_counterexample :
    (((clipPdfModel (some ⟨"https://srv", "k"⟩)
        ⟨⟨false, "", 7, "SD7"⟩, "", "", "https://x.com", "Page"⟩
        (some "data:application/pdf;base64,AAA")
        (.ret ⟨true, 201, none, "", 0, ""⟩)
        (.ret ⟨true, 200, some "55", none, none⟩)
        (.ret ⟨true, 200, ⟨"Doc", some [⟨9, ""⟩]⟩⟩)
        (.ret ⟨true, 200⟩) "ts" resetCache).calls.filter
          (fun c => !c.wrapped)).map (fun c => (c.url, c.method))) =
      [("https://srv" ++ "/api/v1/files", "POST")] ∧
      (clipPdfModel (some ⟨"https://srv", "k"⟩)
        ⟨⟨false, "", 7, "SD7"⟩, "", "", "https://x.com", "Page"⟩
        (some "data:application/pdf;base64,AAA")
        (.ret ⟨true, 201, none, "", 0, ""⟩)
        (.ret ⟨true, 200, some "55", none, none⟩)
        (.ret ⟨true, 200, ⟨"Doc", some [⟨9, ""⟩]⟩⟩)
        (.ret ⟨true, 200⟩) "ts" resetCache).res.success = true := by
  constructor <;> rfl

/-- C8 (amended): every network call of the client layer except the PDF
file upload — the auth status probe, document list, document create,
document fetch and update (both the append and the file-link paths) —
goes through the timeout wrapper; the wrapper's default is 30 s and an
elapsed timeout surfaces as the distinct thrown `Request timeout`, which
the clip path reports as its own timeout message, never as the generic
failure message. -/
theorem C8_timeout_wrapping_amended :
    (∀ (serverUrl : String) (resp : JsOutcome AuthHttp) (c : Cache),
        ((handleAuthModel serverUrl resp c).calls).all (fun c => c.wrapped) = true) ∧
      (∀ (page now : Nat) (auth : Option Creds) (net : JsOutcome ListHttp) (c : Cache),
        ((getDocumentsModel page now auth net c).calls).all (fun c => c.wrapped) = true) ∧
      (∀ (srv title : String) (h : JsOutcome CreateHttp),
        ((createDocumentModel srv title h).2).all (fun c => c.wrapped) = true) ∧
      (∀ (auth : Option Creds) (req : ClipRequest) (createH : JsOutcome CreateHttp)
          (getH : JsOutcome GetDocHttp) (putH : JsOutcome PutHttp) (ts : String)
          (cache : Cache),
        ((clipContentCore auth req createH getH putH ts cache).calls).all
          (fun c => c.wrapped) = true) ∧
      (∀ (srv : String) (docId : Nat) (fileId : String) (req : ClipRequest)
          (ts : String) (getH : JsOutcome GetDocHttp) (putH : JsOutcome PutHttp),
        ((linkFileToDocument srv docId fileId req ts getH putH).2).all
          (fun c => c.wrapped) = true) ∧
      (∀ (α : Type) (r : α), fetchWithTimeoutModel true r = JsOutcome.throw "Request timeout") ∧
      bgFetchTimeoutDefault = 30000 ∧ REQUEST_TIMEOUT_MS = 30000 ∧
      clipCatch "Request timeout" =
        ⟨false, none, none, some "Request timeout. Please try again."⟩ ∧
      (∀ m : String, m ≠ "Request timeout" →
        clipCatch m = ⟨false, none, none, some "An error occurred while clipping"⟩) :=
  ⟨handleAuthModel_wrapped, getDocumentsModel_wrapped, createDocumentModel_wrapped,
    clipContentCore_wrapped, linkFileToDocument_wrapped,
    fun _ _ => rfl, rfl, rfl, rfl,
    fun m hm => by simp [clipCatch, hm]⟩

theorem C8_timeout_wrapping_amended_witness :
    ((handleAuthModel "https://srv" (.ret ⟨true, 200⟩) resetCache).calls).all
        (fun c => c.wrapped) = true ∧
      clipCatch "TypeError: Failed to fetch" =
        ⟨false, none, none, some "An error occurred while clipping"⟩ :=
  ⟨C8_timeout_wrapping_amended.1 "https://srv" (.ret ⟨true, 200⟩) resetCache,
    C8_timeout_wrapping_amended.2.2.2.2.2.2.2.2.2 "TypeError: Failed to fetch" (by decide)⟩
